import Mathlib

/-!
Verification of the realtime status pipeline of `main.py` from the
`astrbot_plugin_komari_status` repository.

The development shallowly embeds the `komari_realtime` handler and its
helpers: the static inventory index, the websocket frame scan, the
payload shape handling, per-node reconciliation against the static
inventory, and the metric normalization steps.  Python values decoded
from JSON are modelled by the inductive type `Json`; Python numbers
(int and float alike) are modelled as rationals, Python dicts as
insertion-ordered association lists, and a Python exception escaping a
piece of code is modelled by that piece returning `none`.
-/

namespace Komari

/-- JSON-like Python runtime values.  Numbers are rationals (Python int and
float collapse into one constructor; the examples of the specification stay
exact under this view).  Objects are insertion-ordered association lists,
matching dict iteration order.  The Python equalities `True == 1` and
`1 == 1.0` are not reflected across constructors; no decoded payload in the
claims mixes booleans with numbers in a compared position. -/
inductive Json where
  | null
  | bool (b : Bool)
  | num (q : ℚ)
  | str (s : String)
  | arr (elems : List Json)
  | obj (fields : List (String × Json))
  deriving Repr

mutual

def decEqJson : (a b : Json) → Decidable (a = b)
  | .null, .null => isTrue rfl
  | .bool a, .bool b =>
      match decEq a b with
      | isTrue h => isTrue (by rw [h])
      | isFalse h => isFalse (by intro hc; cases hc; exact h rfl)
  | .num a, .num b =>
      match decEq a b with
      | isTrue h => isTrue (by rw [h])
      | isFalse h => isFalse (by intro hc; cases hc; exact h rfl)
  | .str a, .str b =>
      match decEq a b with
      | isTrue h => isTrue (by rw [h])
      | isFalse h => isFalse (by intro hc; cases hc; exact h rfl)
  | .arr xs, .arr ys =>
      match decEqJsonList xs ys with
      | isTrue h => isTrue (by rw [h])
      | isFalse h => isFalse (by intro hc; cases hc; exact h rfl)
  | .obj fs, .obj gs =>
      match decEqJsonFields fs gs with
      | isTrue h => isTrue (by rw [h])
      | isFalse h => isFalse (by intro hc; cases hc; exact h rfl)
  | .null, .bool _ => isFalse (by intro h; cases h)
  | .null, .num _ => isFalse (by intro h; cases h)
  | .null, .str _ => isFalse (by intro h; cases h)
  | .null, .arr _ => isFalse (by intro h; cases h)
  | .null, .obj _ => isFalse (by intro h; cases h)
  | .bool _, .null => isFalse (by intro h; cases h)
  | .bool _, .num _ => isFalse (by intro h; cases h)
  | .bool _, .str _ => isFalse (by intro h; cases h)
  | .bool _, .arr _ => isFalse (by intro h; cases h)
  | .bool _, .obj _ => isFalse (by intro h; cases h)
  | .num _, .null => isFalse (by intro h; cases h)
  | .num _, .bool _ => isFalse (by intro h; cases h)
  | .num _, .str _ => isFalse (by intro h; cases h)
  | .num _, .arr _ => isFalse (by intro h; cases h)
  | .num _, .obj _ => isFalse (by intro h; cases h)
  | .str _, .null => isFalse (by intro h; cases h)
  | .str _, .bool _ => isFalse (by intro h; cases h)
  | .str _, .num _ => isFalse (by intro h; cases h)
  | .str _, .arr _ => isFalse (by intro h; cases h)
  | .str _, .obj _ => isFalse (by intro h; cases h)
  | .arr _, .null => isFalse (by intro h; cases h)
  | .arr _, .bool _ => isFalse (by intro h; cases h)
  | .arr _, .num _ => isFalse (by intro h; cases h)
  | .arr _, .str _ => isFalse (by intro h; cases h)
  | .arr _, .obj _ => isFalse (by intro h; cases h)
  | .obj _, .null => isFalse (by intro h; cases h)
  | .obj _, .bool _ => isFalse (by intro h; cases h)
  | .obj _, .num _ => isFalse (by intro h; cases h)
  | .obj _, .str _ => isFalse (by intro h; cases h)
  | .obj _, .arr _ => isFalse (by intro h; cases h)

def decEqJsonList : (xs ys : List Json) → Decidable (xs = ys)
  | [], [] => isTrue rfl
  | [], _ :: _ => isFalse (by intro h; cases h)
  | _ :: _, [] => isFalse (by intro h; cases h)
  | x :: xs, y :: ys =>
      match decEqJson x y, decEqJsonList xs ys with
      | isTrue h1, isTrue h2 => isTrue (by rw [h1, h2])
      | isFalse h1, _ => isFalse (by intro hc; cases hc; exact h1 rfl)
      | _, isFalse h2 => isFalse (by intro hc; cases hc; exact h2 rfl)

def decEqJsonFields : (fs gs : List (String × Json)) → Decidable (fs = gs)
  | [], [] => isTrue rfl
  | [], _ :: _ => isFalse (by intro h; cases h)
  | _ :: _, [] => isFalse (by intro h; cases h)
  | (k1, v1) :: fs, (k2, v2) :: gs =>
      match decEq k1 k2, decEqJson v1 v2, decEqJsonFields fs gs with
      | isTrue h0, isTrue h1, isTrue h2 => isTrue (by rw [h0, h1, h2])
      | isFalse h0, _, _ => isFalse (by intro hc; cases hc; exact h0 rfl)
      | _, isFalse h1, _ => isFalse (by intro hc; cases hc; exact h1 rfl)
      | _, _, isFalse h2 => isFalse (by intro hc; cases hc; exact h2 rfl)

end

instance : DecidableEq Json := decEqJson

/-- First-match lookup in a string-keyed dict (Python dicts never hold a
duplicate key, so first match equals the unique match). -/
def lookupStr : List (String × Json) → String → Option Json
  | [], _ => none
  | (k, v) :: rest, key => if k = key then some v else lookupStr rest key

/-- Python `key in d` for a string-keyed dict. -/
def hasKey (fields : List (String × Json)) (key : String) : Bool :=
  (lookupStr fields key).isSome

/-- Python dict assignment `d[key] = v`: replace in place when the key
exists, append otherwise. -/
def dinsertS : List (String × Json) → String → Json → List (String × Json)
  | [], key, v => [(key, v)]
  | (k, w) :: rest, key, v =>
      if k = key then (k, v) :: rest else (k, w) :: dinsertS rest key v

/-- Python `d.get(key, dflt)`. -/
def pyGetD (fields : List (String × Json)) (key : String) (dflt : Json) : Json :=
  (lookupStr fields key).getD dflt

/-- Python `d.get(key)`: `None` both for a missing key and for a stored null. -/
def pyGetN (fields : List (String × Json)) (key : String) : Json :=
  pyGetD fields key Json.null

/-- Lookup in a dict with arbitrary (hashable) Python keys, as used for the
static inventory index. -/
def dlookupJ : List (Json × Json) → Json → Option Json
  | [], _ => none
  | (k, v) :: rest, key => if k = key then some v else dlookupJ rest key

/-- Assignment in a dict with arbitrary Python keys. -/
def dinsertJ : List (Json × Json) → Json → Json → List (Json × Json)
  | [], key, v => [(key, v)]
  | (k, w) :: rest, key, v =>
      if k = key then (k, v) :: rest else (k, w) :: dinsertJ rest key v

/-- Python truthiness of a decoded JSON value. -/
def pyTruthy : Json → Bool
  | .null => false
  | .bool b => b
  | .num q => decide (q ≠ 0)
  | .str s => decide (s ≠ "")
  | .arr xs => !xs.isEmpty
  | .obj fs => !fs.isEmpty

/-- Values usable as dict keys or membership probes; a Python list or dict is
unhashable and raises `TypeError` when used as one. -/
def pyHashable : Json → Bool
  | .arr _ => false
  | .obj _ => false
  | _ => true

/-- Numeric view used by Python arithmetic and comparisons against numbers:
ints, floats and bools are numbers, everything else raises `TypeError`. -/
def pyNum : Json → Option ℚ
  | .num q => some q
  | .bool b => some (if b then 1 else 0)
  | _ => none

/-! JSON text decoding, modelling `json.loads`.  The decoder covers the JSON
grammar used by the monitor (literals, numbers with fraction and exponent,
strings with the common escapes, arrays, objects); an input outside this
fragment decodes to `none`, which is how a raised `json.JSONDecodeError` is
modelled.  A duplicated object key keeps the last occurrence, as `json.loads`
does. -/

def quoteChar : Char := Char.ofNat 34

def backslashChar : Char := Char.ofNat 92

def lbraceChar : Char := Char.ofNat 123

def rbraceChar : Char := Char.ofNat 125

def skipWs : List Char → List Char
  | [] => []
  | c :: rest =>
      if c = ' ' ∨ c = '\n' ∨ c = '\t' ∨ c = '\r' then skipWs rest else c :: rest

def eatLit : List Char → List Char → Option (List Char)
  | [], cs => some cs
  | l :: ls, c :: cs => if c = l then eatLit ls cs else none
  | _ :: _, [] => none

def takeDigits : List Char → List Char × List Char
  | [] => ([], [])
  | c :: rest =>
      if c.isDigit then
        let p := takeDigits rest
        (c :: p.1, p.2)
      else ([], c :: rest)

def digitsToNat (ds : List Char) : Nat :=
  ds.foldl (fun acc c => acc * 10 + (c.toNat - 48)) 0

def applyExp (q : ℚ) (e : Int) : ℚ :=
  if 0 ≤ e then q * (10 : ℚ) ^ e.toNat else q / (10 : ℚ) ^ (-e).toNat

def parseExpTail (cs : List Char) : Option (Int × List Char) :=
  let p : Int × List Char :=
    match cs with
    | '+' :: rest => (1, rest)
    | '-' :: rest => (-1, rest)
    | _ => (1, cs)
  let d := takeDigits p.2
  if d.1.isEmpty then none else some (p.1 * (digitsToNat d.1 : Int), d.2)

def parseExp : List Char → Option (Int × List Char)
  | 'e' :: rest => parseExpTail rest
  | 'E' :: rest => parseExpTail rest
  | cs => some (0, cs)

def parseFrac : List Char → Option (ℚ × List Char)
  | '.' :: rest =>
      let d := takeDigits rest
      if d.1.isEmpty then none
      else some ((digitsToNat d.1 : ℚ) / (10 : ℚ) ^ d.1.length, d.2)
  | cs => some (0, cs)

def parseNumber (cs : List Char) : Option (ℚ × List Char) :=
  let p : Bool × List Char :=
    match cs with
    | '-' :: rest => (true, rest)
    | _ => (false, cs)
  let ip := takeDigits p.2
  if ip.1.isEmpty then none
  else
    match parseFrac ip.2 with
    | none => none
    | some (fr, cs3) =>
        match parseExp cs3 with
        | none => none
        | some (e, cs4) =>
            let v := applyExp ((digitsToNat ip.1 : ℚ) + fr) e
            some (if p.1 then -v else v, cs4)

def parseStringBody : Nat → List Char → Option (List Char × List Char)
  | 0, _ => none
  | _, [] => none
  | fuel + 1, c :: rest =>
      if c = quoteChar then some ([], rest)
      else if c = backslashChar then
        match rest with
        | [] => none
        | e :: rest2 =>
            let dec : Option Char :=
              if e = quoteChar then some quoteChar
              else if e = backslashChar then some backslashChar
              else if e = '/' then some '/'
              else if e = 'n' then some '\n'
              else if e = 't' then some '\t'
              else if e = 'r' then some '\r'
              else none
            match dec with
            | none => none
            | some ch =>
                match parseStringBody fuel rest2 with
                | some (body, rem) => some (ch :: body, rem)
                | none => none
      else
        match parseStringBody fuel rest with
        | some (body, rem) => some (c :: body, rem)
        | none => none

mutual

def parseVal : Nat → List Char → Option (Json × List Char)
  | 0, _ => none
  | fuel + 1, cs =>
      match skipWs cs with
      | [] => none
      | c :: rest =>
          if c = 'n' then (eatLit ['u', 'l', 'l'] rest).map (fun r => (Json.null, r))
          else if c = 't' then (eatLit ['r', 'u', 'e'] rest).map (fun r => (Json.bool true, r))
          else if c = 'f' then (eatLit ['a', 'l', 's', 'e'] rest).map (fun r => (Json.bool false, r))
          else if c = quoteChar then
            match parseStringBody (rest.length + 1) rest with
            | some (body, rem) => some (Json.str (String.mk body), rem)
            | none => none
          else if c = '[' then
            match skipWs rest with
            | ']' :: rem => some (Json.arr [], rem)
            | cs2 =>
                match parseArrItems fuel cs2 with
                | some (xs, rem) => some (Json.arr xs, rem)
                | none => none
          else if c = lbraceChar then
            match skipWs rest with
            | [] => none
            | d :: rem =>
                if d = rbraceChar then some (Json.obj [], rem)
                else
                  match parseObjItems fuel (d :: rem) with
                  | some (ps, rem2) =>
                      some (Json.obj (ps.foldl (fun acc p => dinsertS acc p.1 p.2) []), rem2)
                  | none => none
          else
            match parseNumber (c :: rest) with
            | some (q, rem) => some (Json.num q, rem)
            | none => none

def parseArrItems : Nat → List Char → Option (List Json × List Char)
  | 0, _ => none
  | fuel + 1, cs =>
      match parseVal fuel cs with
      | none => none
      | some (v, rest) =>
          match skipWs rest with
          | ',' :: rest2 =>
              match parseArrItems fuel rest2 with
              | some (vs, rem) => some (v :: vs, rem)
              | none => none
          | ']' :: rem => some ([v], rem)
          | _ => none

def parseObjItems : Nat → List Char → Option (List (String × Json) × List Char)
  | 0, _ => none
  | fuel + 1, cs =>
      match skipWs cs with
      | [] => none
      | c :: rest =>
          if c = quoteChar then
            match parseStringBody (rest.length + 1) rest with
            | none => none
            | some (keyBody, rem1) =>
                match skipWs rem1 with
                | ':' :: rem2 =>
                    match parseVal fuel rem2 with
                    | none => none
                    | some (v, rem3) =>
                        match skipWs rem3 with
                        | ',' :: rem4 =>
                            match parseObjItems fuel rem4 with
                            | some (ps, rem5) => some ((String.mk keyBody, v) :: ps, rem5)
                            | none => none
                        | cend :: rem4 =>
                            if cend = rbraceChar then some ([(String.mk keyBody, v)], rem4)
                            else none
                        | [] => none
                | _ => none
          else none

end

/-- Python `json.loads` over a text frame or a string element: the decoded
value when the whole input parses, `none` for a raised decode error. -/
def parseJson (s : String) : Option Json :=
  match parseVal (s.length + 1) s.toList with
  | some (v, rest) => if (skipWs rest).isEmpty then some v else none
  | none => none

/-- Python `float(s)` on a string: optional surrounding whitespace and sign,
digits with an optional fraction (a bare leading or trailing dot is allowed)
and an optional exponent; anything else raises `ValueError` (`none`).
The special spellings inf and nan are treated as errors; no claim uses them. -/
def parseFloatStr (s : String) : Option ℚ :=
  let cs := skipWs s.toList
  let p : Bool × List Char :=
    match cs with
    | '-' :: rest => (true, rest)
    | '+' :: rest => (false, rest)
    | _ => (false, cs)
  let ip := takeDigits p.2
  let frac : Option (List Char × List Char) :=
    match ip.2 with
    | '.' :: rest =>
        let fd := takeDigits rest
        if ip.1.isEmpty ∧ fd.1.isEmpty then none else some (fd.1, fd.2)
    | _ => if ip.1.isEmpty then none else some ([], ip.2)
  match frac with
  | none => none
  | some (fd, cs3) =>
      match parseExp cs3 with
      | none => none
      | some (e, rest) =>
          if (skipWs rest).isEmpty then
            let base : ℚ := (digitsToNat ip.1 : ℚ) + (digitsToNat fd : ℚ) / (10 : ℚ) ^ fd.length
            let v := applyExp base e
            some (if p.1 then -v else v)
          else none

/-- Python `float(x)` as applied to a decoded JSON value. -/
def pyFloat : Json → Option ℚ
  | .num q => some q
  | .bool b => some (if b then 1 else 0)
  | .str s => parseFloatStr s
  | _ => none

/-- Round half to even, the tie-breaking rule of Python `round` and of float
formatting.  The claims only evaluate it away from ties, where every rounding
rule agrees. -/
def roundHalfEven (q : ℚ) : ℤ :=
  let f := ⌊q⌋
  let r := q - (f : ℚ)
  if r < 1 / 2 then f
  else if 1 / 2 < (r : ℚ) then f + 1
  else if f % 2 = 0 then f else f + 1

/-- Python `round(q, prec)`. -/
def roundTo (prec : Nat) (q : ℚ) : ℚ :=
  (roundHalfEven (q * (10 : ℚ) ^ prec) : ℚ) / (10 : ℚ) ^ prec

def padZeros (s : String) (width : Nat) : String :=
  if s.length < width then String.mk (List.replicate (width - s.length) '0') ++ s else s

/-- Fixed-point rendering used by the f-string formats of the source. -/
def fmtFixed (prec : Nat) (q : ℚ) : String :=
  let scaled := roundHalfEven (q * (10 : ℚ) ^ prec)
  let sign := if scaled < 0 then "-" else ""
  let a := scaled.natAbs
  if prec = 0 then sign ++ toString a
  else sign ++ toString (a / 10 ^ prec) ++ "." ++ padZeros (toString (a % 10 ^ prec)) prec

/-! Static inventory index (`komari_realtime`, step 1).  For each node of the
`data` list of `/api/nodes`, the record is inserted under its `id` and under
its `uuid` whenever that key is truthy.  Any exception inside the loop (a
non-dict element, whose `.get` raises `AttributeError`, or a truthy but
unhashable key, whose dict assignment raises `TypeError`) escapes to the
surrounding try block, so the index build stops and the partially built
index is kept. -/

/-- One guarded insertion `if n.get(k): static_nodes[n.get(k)] = n`.  The
boolean flags the `TypeError` raised by indexing the dict with a truthy
unhashable key (a list or a dict); the map component is what the dict holds
at that point. -/
def insertKey (acc : List (Json × Json)) (key : Json) (node : Json) :
    List (Json × Json) × Bool :=
  if pyTruthy key then
    if pyHashable key then (dinsertJ acc key node, false)
    else (acc, true)
  else (acc, false)

/-- One loop iteration: insert under `id`, then (when that did not raise)
under `uuid`.  An id entry already inserted survives a raising uuid. -/
def insertNode (acc : List (Json × Json)) (fields : List (String × Json)) :
    List (Json × Json) × Bool :=
  let s1 := insertKey acc (pyGetN fields "id") (Json.obj fields)
  if s1.2 then s1
  else insertKey s1.1 (pyGetN fields "uuid") (Json.obj fields)

def buildStatic : List Json → List (Json × Json) → List (Json × Json)
  | [], acc => acc
  | n :: rest, acc =>
      match n with
      | .obj fields =>
          let s := insertNode acc fields
          if s.2 then s.1 else buildStatic rest s.1
      | _ => acc

/-- The insertions of a node raise no `TypeError`: each of its truthy
identity keys is hashable. -/
def nodeKeysOk : Json → Bool
  | .obj fields =>
      (!pyTruthy (pyGetN fields "id") || pyHashable (pyGetN fields "id")) &&
        (!pyTruthy (pyGetN fields "uuid") || pyHashable (pyGetN fields "uuid"))
  | _ => true

/-! Websocket frame handling (`komari_realtime`, step 2).  The success branch
applies the online/detail shape handling to the extracted `data` payload; any
exception inside the frame body is swallowed by the surrounding
`except Exception: pass`, leaving `realtime_data` untouched and moving to the
next receive attempt. -/

/-- Python `for uuid in online_uuids`: lists iterate their elements, strings
their characters, dicts their keys; other values raise `TypeError`. -/
def pyIter : Json → Option (List Json)
  | .arr xs => some xs
  | .str s => some (s.toList.map (fun c => Json.str (String.mk [c])))
  | .obj fields => some (fields.map (fun p => Json.str p.1))
  | _ => none

/-- Python `uuid in details_map`: `none` models a raised `TypeError` (an
unhashable probe against a dict, a probe of the wrong type against a string,
or a non-container), `some b` a normal membership answer.  JSON object keys
are always strings, so a hashable non-string probe is simply absent. -/
def detailsContains : Json → Json → Option Bool
  | .obj fields, .str key => some (hasKey fields key)
  | .obj _, .arr _ => none
  | .obj _, .obj _ => none
  | .obj _, _ => some false
  | .arr xs, u => some (decide (u ∈ xs))
  | .str s, .str t => some (decide (List.IsInfix t.toList s.toList))
  | .str _, _ => none
  | _, _ => none

/-- Python list indexing with a decoded JSON value: integral indices (bools
included) within range, negative indices from the end; anything else raises
(`none`, an `IndexError` or `TypeError`). -/
def listIndex (xs : List Json) (u : Json) : Option Json :=
  match u with
  | .bool b => xs.get? (if b then 1 else 0)
  | .num q =>
      if q.den = 1 then
        let i := q.num
        if 0 ≤ i ∧ i < (xs.length : Int) then xs.get? i.toNat
        else if -(xs.length : Int) ≤ i ∧ i < 0 then xs.get? (xs.length - (-i).toNat)
        else none
      else none
  | _ => none

/-- Python `details_map[uuid]`, evaluated only after a positive membership
answer. -/
def detailsIndex : Json → Json → Option Json
  | .obj fields, .str key => lookupStr fields key
  | .arr xs, u => listIndex xs u
  | _, _ => none

/-- In-place mutation of the container entry after `node_info["uuid"] = uuid`
(the looked-up object is aliased by the map, so the map sees the new field). -/
def detailsSet : Json → Json → Json → Json
  | .obj fields, .str key, v => .obj (dinsertS fields key v)
  | .arr xs, .num q, v =>
      if q.den = 1 ∧ 0 ≤ q.num ∧ q.num < (xs.length : Int) then .arr (xs.set q.num.toNat v)
      else if q.den = 1 ∧ -(xs.length : Int) ≤ q.num ∧ q.num < 0 then
        .arr (xs.set (xs.length - (-q.num).toNat) v)
      else .arr xs
  | d, _, _ => d

/-- The loop over `online_uuids`: skip identifiers absent from the detail map,
inject the identifier as the `uuid` field of a found record, raise (`none`)
when membership, indexing or the field assignment raises. -/
def onlineLoop : List Json → Json → List Json → Option (List Json)
  | [], _, acc => some acc.reverse
  | u :: rest, details, acc =>
      match detailsContains details u with
      | none => none
      | some false => onlineLoop rest details acc
      | some true =>
          match detailsIndex details u with
          | none => none
          | some (Json.obj fs) =>
              let injected := Json.obj (dinsertS fs "uuid" u)
              onlineLoop rest (detailsSet details u injected) (injected :: acc)
          | some _ => none

/-- Shape handling applied to the extracted `data` payload inside the frame
body: a mapping holding both an `online` and a `data` key is flattened through
`onlineLoop`; every other value is passed through unchanged.  `none` models an
exception raised inside the branch. -/
def stage1 : Json → Option Json
  | .obj fields =>
      if hasKey fields "online" && hasKey fields "data" then
        match pyIter (pyGetD fields "online" (Json.arr [])) with
        | none => none
        | some ids =>
            match onlineLoop ids (pyGetD fields "data" (Json.obj [])) [] with
            | some xs => some (Json.arr xs)
            | none => none
      else some (Json.obj fields)
  | d => some d

/-- Incoming websocket frames: text, a closed or error frame, or any other
frame kind (binary, ping, ...), which matches neither branch of the source. -/
inductive Frame where
  | text (s : String)
  | closeF
  | errF
  | otherF
  deriving DecidableEq, Repr

def shiftF (frames : Nat → Frame) : Nat → Frame := fun i => frames (i + 1)

/-- The bounded receive loop `for _ in range(3)` (with remaining attempts as
the second argument): a text frame that decodes to a dict whose `status` is
the string success has its `data` payload extracted and shape-handled, and on
success the loop breaks with it; a decode failure or an exception inside the
frame body falls through to the next attempt; a closed or error frame breaks
with nothing; other frame kinds consume an attempt. -/
def wsAttempt : (Nat → Frame) → Nat → Option Json
  | _, 0 => none
  | frames, n + 1 =>
      match frames 0 with
      | .closeF => none
      | .errF => none
      | .otherF => wsAttempt (shiftF frames) n
      | .text s =>
          match parseJson s with
          | some (Json.obj fs) =>
              if pyGetN fs "status" = Json.str "success" then
                match stage1 (pyGetD fs "data" (Json.obj [])) with
                | some d => some d
                | none => wsAttempt (shiftF frames) n
              else wsAttempt (shiftF frames) n
          | _ => wsAttempt (shiftF frames) n

def wsLoop (frames : Nat → Frame) : Option Json := wsAttempt frames 3

/-! Shape dispatch over `realtime_data` (`komari_realtime`, step 3 entry). -/

def convKeys : List String := ["servers", "nodes", "clients", "list", "data"]

/-- Strategy 1 of the dict handling: the first conventional key holding a
list wins. -/
def findConv : List String → List (String × Json) → Option (List Json)
  | [], _ => none
  | k :: ks, fields =>
      match lookupStr fields k with
      | some (Json.arr xs) => some xs
      | _ => findConv ks fields

inductive Dispatch where
  | elems (xs : List Json)
  | formatErr (keys : List String)
  | iterErr
  deriving DecidableEq, Repr

/-- Turning a truthy `realtime_data` into the iterated raw elements: a dict
goes through the conventional keys, then through its dict-valued values,
then reports a format failure with its key list; a list iterates as is; a
string iterates its characters; any other value raises when iterated. -/
def dispatchElems : Json → Dispatch
  | .obj fields =>
      match findConv convKeys fields with
      | some xs => .elems xs
      | none =>
          match fields.filterMap (fun p =>
              match p.2 with
              | Json.obj gs => some (Json.obj gs)
              | _ => none) with
          | [] => .formatErr (fields.map (fun p => p.1))
          | v :: vs => .elems (v :: vs)
  | .arr xs => .elems xs
  | .str s => .elems (s.toList.map (fun c => Json.str (String.mk [c])))
  | _ => .iterErr

/-! Reconciliation of one raw record against the static inventory
(`komari_realtime`, lines 281-299). -/

/-- The backfill loop: for every static field absent from the node or stored
as null, copy the static value. -/
def backfill (fields sfs : List (String × Json)) : List (String × Json) :=
  sfs.foldl
    (fun acc p =>
      match lookupStr acc p.1 with
      | none => dinsertS acc p.1 p.2
      | some Json.null => dinsertS acc p.1 p.2
      | some _ => acc)
    fields

/-- The identity key of a raw record, `lookup_key = uuid or node_id` of the
source (Python `or` takes the first truthy operand, else the second). -/
def reconKey (fields : List (String × Json)) : Json :=
  if pyTruthy (pyGetN fields "uuid") then pyGetN fields "uuid" else pyGetN fields "id"

/-- Reconcile a raw record: look up `uuid` or `id` in the static index,
backfill from a match, special-case the name, then force a truthy name with
the placeholder 未知节点 (the unknown node placeholder of the source).
`none` models a raised `TypeError` from probing the index with an unhashable
key. -/
def reconcile (static : List (Json × Json)) (fields : List (String × Json)) :
    Option (List (String × Json)) :=
  let name := pyGetN fields "name"
  let lookup_key := reconKey fields
  let afterMatch : Option (List (String × Json) × Json) :=
    if pyTruthy lookup_key then
      if pyHashable lookup_key then
        match dlookupJ static lookup_key with
        | some (Json.obj sfs) =>
            let fields2 := backfill fields sfs
            let name2 :=
              if pyTruthy name = false ∨ name = Json.str "Unknown" then
                (lookupStr sfs "name").getD name
              else name
            some (fields2, name2)
        | some _ => none
        | none => some (fields, name)
      else none
    else some (fields, name)
  afterMatch.map (fun p =>
    dinsertS p.1 "name" (if pyTruthy p.2 then p.2 else Json.str "未知节点"))

/-! Metric normalization steps (`komari_realtime`, lines 301-372).  Each step
returns `none` exactly when the Python code would raise out of the handler
(there is no try block around this region). -/

def cpuStep (fields : List (String × Json)) : Option (List (String × Json)) :=
  match lookupStr fields "cpu" with
  | some (Json.obj cfs) =>
      let cpu_usage := pyGetD cfs "usage" (Json.num 0)
      if cpu_usage = Json.null then some fields
      else
        match pyFloat cpu_usage with
        | some x => some (dinsertS fields "cpu_usage_percent" (Json.num (roundTo 2 x)))
        | none => none
  | _ => some fields

def ramStep (fields : List (String × Json)) : Option (List (String × Json)) :=
  match lookupStr fields "ram" with
  | some (Json.obj rfs) =>
      match pyNum (pyGetD rfs "total" (Json.num 0)) with
      | none => none
      | some t =>
          if 0 < t then
            match pyNum (pyGetD rfs "used" (Json.num 0)) with
            | none => none
            | some u =>
                some (dinsertS (dinsertS (dinsertS fields
                  "ram_total_gb" (Json.num (roundTo 2 (t / 1024 ^ 3))))
                  "ram_used_gb" (Json.num (roundTo 2 (u / 1024 ^ 3))))
                  "ram_usage_percent" (Json.num (roundTo 1 (u / t * 100))))
          else some fields
  | _ =>
      match lookupStr fields "mem_total" with
      | some _ =>
          match pyNum (pyGetD fields "mem_total" (Json.num 0)) with
          | some m =>
              some (dinsertS fields "ram_total_gb" (Json.num (roundTo 2 (m / 1024 ^ 3))))
          | none => none
      | none => some fields

def diskStep (fields : List (String × Json)) : Option (List (String × Json)) :=
  match lookupStr fields "disk" with
  | some (Json.obj dfs) =>
      match pyNum (pyGetD dfs "total" (Json.num 0)) with
      | none => none
      | some t =>
          if 0 < t then
            match pyNum (pyGetD dfs "used" (Json.num 0)) with
            | none => none
            | some u =>
                some (dinsertS (dinsertS (dinsertS fields
                  "disk_total_gb" (Json.num (roundTo 2 (t / 1024 ^ 3))))
                  "disk_used_gb" (Json.num (roundTo 2 (u / 1024 ^ 3))))
                  "disk_usage_percent" (Json.num (roundTo 1 (u / t * 100))))
          else some fields
  | _ =>
      match lookupStr fields "disk_total" with
      | some _ =>
          match pyNum (pyGetD fields "disk_total" (Json.num 0)) with
          | some m =>
              some (dinsertS fields "disk_total_gb" (Json.num (roundTo 2 (m / 1024 ^ 3))))
          | none => none
      | none => some fields

def fmt_speed (b : ℚ) : String :=
  if 1024 * 1024 < b then fmtFixed 1 (b / 1024 / 1024) ++ " MB/s"
  else fmtFixed 1 (b / 1024) ++ " KB/s"

def fmt_traffic (b : ℚ) : String :=
  if 1024 ^ 3 < b then fmtFixed 2 (b / 1024 ^ 3) ++ " GB"
  else fmtFixed 2 (b / 1024 ^ 2) ++ " MB"

def netStep (fields : List (String × Json)) : Option (List (String × Json)) :=
  match lookupStr fields "network" with
  | some (Json.obj nfs) =>
      match pyNum (pyGetD nfs "up" (Json.num 0)) with
      | none => none
      | some up =>
          match pyNum (pyGetD nfs "down" (Json.num 0)) with
          | none => none
          | some down =>
              let f2 := dinsertS (dinsertS fields
                "net_up_str" (Json.str (fmt_speed up)))
                "net_down_str" (Json.str (fmt_speed down))
              match pyNum (pyGetD nfs "totalUp" (Json.num 0)) with
              | none => none
              | some tu =>
                  match pyNum (pyGetD nfs "totalDown" (Json.num 0)) with
                  | none => none
                  | some td =>
                      some (dinsertS (dinsertS f2
                        "traffic_up_str" (Json.str (fmt_traffic tu)))
                        "traffic_down_str" (Json.str (fmt_traffic td)))
  | _ => some fields

/-- Uptime decomposition.  A float uptime would render its day and hour parts
with a trailing .0 in Python; the model renders the integral parts, which
agree on integer uptimes (the documented payload shape). -/
def uptimeStep (fields : List (String × Json)) : Option (List (String × Json)) :=
  match lookupStr fields "uptime" with
  | some _ =>
      match pyNum (pyGetD fields "uptime" (Json.num 0)) with
      | none => none
      | some t =>
          let days : ℤ := ⌊t / 86400⌋
          let hours : ℤ := ⌊(t - 86400 * (days : ℚ)) / 3600⌋
          some (dinsertS fields "uptime_str"
            (Json.str (toString days ++ "天 " ++ toString hours ++ "小时")))
  | none => some fields

def loadStep (fields : List (String × Json)) : Option (List (String × Json)) :=
  match lookupStr fields "load" with
  | some (Json.obj lfs) =>
      some (dinsertS (dinsertS (dinsertS fields
        "load_1" (pyGetN lfs "load1"))
        "load_5" (pyGetN lfs "load5"))
        "load_15" (pyGetN lfs "load15"))
  | _ => some fields

def normalizeMetrics (fields : List (String × Json)) : Option (List (String × Json)) :=
  (cpuStep fields).bind fun f1 =>
    (ramStep f1).bind fun f2 =>
      (diskStep f2).bind fun f3 =>
        (netStep f3).bind fun f4 =>
          (uptimeStep f4).bind loadStep

/-! Per-element validation and processing (`komari_realtime`, lines 267-372). -/

/-- Element validation: a string element is decoded (a decode failure drops
it), then anything that is not a dict is dropped. -/
def validateElem : Json → Option (List (String × Json))
  | .str s =>
      match parseJson s with
      | some (Json.obj fs) => some fs
      | _ => none
  | .obj fs => some fs
  | _ => none

def processNode (static : List (Json × Json)) (fields : List (String × Json)) :
    Option (List (String × Json)) :=
  (reconcile static fields).bind normalizeMetrics

/-- The processing loop: validated elements are reconciled and normalized and
collected in order; a dropped element is skipped silently; an exception while
processing an element (`processNode` giving `none`) aborts the whole loop and
loses every record. -/
def processElems (static : List (Json × Json)) : List Json → Option (List Json)
  | [] => some []
  | e :: rest =>
      match validateElem e with
      | none => processElems static rest
      | some fs =>
          match processNode static fs with
          | none => none
          | some fs2 => (processElems static rest).map (fun l => Json.obj fs2 :: l)

/-- Observable outcome of the tail of `komari_realtime` after the websocket
loop produced `realtime_data`: the no-data message (line 223), the
dict-format failure message (line 264), an exception escaping the handler, or
the processed node list handed to the output stage. -/
inductive RealtimeOutcome where
  | noData
  | formatError (keys : List String)
  | crash
  | report (nodes : List Json)
  deriving DecidableEq, Repr

def realtimeOutcome (static : List (Json × Json)) (rd : Json) : RealtimeOutcome :=
  if pyTruthy rd then
    match dispatchElems rd with
    | .formatErr ks => .formatError ks
    | .iterErr => .crash
    | .elems xs =>
        match processElems static xs with
        | some ns => .report ns
        | none => .crash
  else .noData

/-! Auxiliary predicates and concrete inputs used by the claims. -/

/-- Spec-side description of the online/detail emission of claim C1: for each
identifier of `online`, in order, the detail record under it (skipped when
absent) with the identifier injected as its `uuid` field.  This definition
follows the words of the specification and is compared with the source-side
`stage1`. -/
def emitsSpec : List String → List (String × Json) → List Json
  | [], _ => []
  | u :: rest, dfs =>
      match (lookupStr dfs u).bind (fun v =>
          match v with
          | Json.obj gs => some (Json.obj (dinsertS gs "uuid" (Json.str u)))
          | _ => none) with
      | some v => v :: emitsSpec rest dfs
      | none => emitsSpec rest dfs

def isObjJ : Json → Bool
  | .obj _ => true
  | _ => false

def numLike : Json → Bool
  | .num _ => true
  | .bool _ => true
  | _ => false

/-- The group under `key` is absent or is not a dict, so the corresponding
metric step does not touch it. -/
def groupNotDict (fields : List (String × Json)) (key : String) : Prop :=
  lookupStr fields key = none ∨
    ∃ v, lookupStr fields key = some v ∧ isObjJ v = false

def cpuOk (fields : List (String × Json)) : Bool :=
  match lookupStr fields "cpu" with
  | some (Json.obj cfs) =>
      decide (pyGetD cfs "usage" (Json.num 0) = Json.null) ||
        numLike (pyGetD cfs "usage" (Json.num 0))
  | _ => true

def ramOk (fields : List (String × Json)) : Bool :=
  match lookupStr fields "ram" with
  | some (Json.obj rfs) =>
      numLike (pyGetD rfs "total" (Json.num 0)) && numLike (pyGetD rfs "used" (Json.num 0))
  | _ => numLike (pyGetD fields "mem_total" (Json.num 0))

def diskOk (fields : List (String × Json)) : Bool :=
  match lookupStr fields "disk" with
  | some (Json.obj dfs) =>
      numLike (pyGetD dfs "total" (Json.num 0)) && numLike (pyGetD dfs "used" (Json.num 0))
  | _ => numLike (pyGetD fields "disk_total" (Json.num 0))

def netOk (fields : List (String × Json)) : Bool :=
  match lookupStr fields "network" with
  | some (Json.obj nfs) =>
      numLike (pyGetD nfs "up" (Json.num 0)) && numLike (pyGetD nfs "down" (Json.num 0)) &&
        numLike (pyGetD nfs "totalUp" (Json.num 0)) && numLike (pyGetD nfs "totalDown" (Json.num 0))
  | _ => true

def uptimeOk (fields : List (String × Json)) : Bool :=
  match lookupStr fields "uptime" with
  | none => true
  | some v => numLike v

/-- Sufficient well-typedness of the metric groups of a record: every value a
metric step feeds into arithmetic is a number (or a boolean).  Under this
condition no step raises. -/
def wellTypedMetrics (fields : List (String × Json)) : Bool :=
  cpuOk fields && ramOk fields && diskOk fields && netOk fields && uptimeOk fields

/-- The keys under which `buildStatic` indexes a node: its truthy `id`, then
its truthy `uuid`. -/
def insKeys : Json → List Json
  | .obj fields =>
      (if pyTruthy (pyGetN fields "id") then [pyGetN fields "id"] else []) ++
        (if pyTruthy (pyGetN fields "uuid") then [pyGetN fields "uuid"] else [])
  | _ => []

/-- A success frame whose payload has the online/detail pair with an
uniterable `online` value: the frame body raises while flattening it. -/
def badSuccessFrame : String :=
  "\x7b\"status\": \"success\", \"data\": \x7b\"online\": 0, \"data\": \x7b\x7d\x7d\x7d"

/-- A success frame with a well-formed list payload. -/
def goodSuccessFrame : String :=
  "\x7b\"status\": \"success\", \"data\": [\x7b\"name\": \"a\"\x7d]\x7d"

/-- Frame sequence: first the raising success frame, then the good one. -/
def cframes : Nat → Frame := fun i =>
  if i = 0 then Frame.text badSuccessFrame
  else if i = 1 then Frame.text goodSuccessFrame
  else Frame.closeF

/-- Inventory list whose second node reuses the uuid of the first as its id. -/
def staticCollision : List Json :=
  [Json.obj [("id", Json.str "a"), ("uuid", Json.str "b"), ("name", Json.str "n1")],
   Json.obj [("id", Json.str "b"), ("name", Json.str "n2")]]

/-- A record whose ram group is a dict without a positive total, next to a
flat `mem_total`. -/
def ramZeroNode : List (String × Json) :=
  [("ram", Json.obj [("total", Json.num 0)]), ("mem_total", Json.num 1073741824)]

/-- A well-formed record. -/
def goodNode : Json :=
  Json.obj [("name", Json.str "g"),
    ("ram", Json.obj [("total", Json.num 1073741824), ("used", Json.num 536870912)])]

/-- A record whose cpu group holds a non-numeric usage string. -/
def badCpuNode : Json := Json.obj [("cpu", Json.obj [("usage", Json.str "xx")])]

/-! Association-list lemmas. -/

theorem lookupStr_dinsertS_self (fs : List (String × Json)) (k : String) (v : Json) :
    lookupStr (dinsertS fs k v) k = some v := by
  induction fs with
  | nil => simp [dinsertS, lookupStr]
  | cons p rest ih =>
      obtain ⟨k0, w⟩ := p
      by_cases h : k0 = k
      · simp [dinsertS, h, lookupStr]
      · simp [dinsertS, h, lookupStr, ih]

theorem lookupStr_dinsertS_ne (fs : List (String × Json)) (k k2 : String) (v : Json)
    (h : k2 ≠ k) : lookupStr (dinsertS fs k v) k2 = lookupStr fs k2 := by
  induction fs with
  | nil => simp [dinsertS, lookupStr, Ne.symm h]
  | cons p rest ih =>
      obtain ⟨k0, w⟩ := p
      by_cases h0 : k0 = k
      · subst h0
        simp [dinsertS, lookupStr, Ne.symm h]
      · simp only [dinsertS, if_neg h0, lookupStr]
        by_cases h2 : k0 = k2 <;> simp [h2, ih]

theorem dinsertS_idem (fs : List (String × Json)) (k : String) (v : Json) :
    dinsertS (dinsertS fs k v) k v = dinsertS fs k v := by
  induction fs with
  | nil => simp [dinsertS]
  | cons p rest ih =>
      obtain ⟨k0, w⟩ := p
      by_cases h : k0 = k
      · simp [dinsertS, h]
      · simp [dinsertS, h, ih]

theorem mem_dinsertS (fs : List (String × Json)) (k : String) (v : Json)
    (p : String × Json) (hp : p ∈ dinsertS fs k v) : p.2 = v ∨ p ∈ fs := by
  induction fs with
  | nil =>
      simp [dinsertS] at hp
      subst hp
      exact Or.inl rfl
  | cons q rest ih =>
      obtain ⟨k0, w⟩ := q
      by_cases h : k0 = k
      · simp only [dinsertS, if_pos h] at hp
        rcases List.mem_cons.mp hp with h1 | h1
        · subst h1
          exact Or.inl rfl
        · exact Or.inr (List.mem_cons_of_mem _ h1)
      · simp only [dinsertS, if_neg h] at hp
        rcases List.mem_cons.mp hp with h1 | h1
        · subst h1
          exact Or.inr (List.mem_cons_self _ _)
        · rcases ih h1 with h2 | h2
          · exact Or.inl h2
          · exact Or.inr (List.mem_cons_of_mem _ h2)

theorem lookupStr_mem (fs : List (String × Json)) (k : String) (v : Json)
    (h : lookupStr fs k = some v) : (k, v) ∈ fs := by
  induction fs with
  | nil => simp [lookupStr] at h
  | cons p rest ih =>
      obtain ⟨k0, w⟩ := p
      simp only [lookupStr] at h
      by_cases h0 : k0 = k
      · subst h0
        rw [if_pos rfl] at h
        cases h
        exact List.mem_cons_self _ _
      · rw [if_neg h0] at h
        exact List.mem_cons_of_mem _ (ih h)

theorem dlookupJ_dinsertJ_self (fs : List (Json × Json)) (k : Json) (v : Json) :
    dlookupJ (dinsertJ fs k v) k = some v := by
  induction fs with
  | nil => simp [dinsertJ, dlookupJ]
  | cons p rest ih =>
      obtain ⟨k0, w⟩ := p
      by_cases h : k0 = k
      · simp [dinsertJ, h, dlookupJ]
      · simp [dinsertJ, h, dlookupJ, ih]

theorem dlookupJ_dinsertJ_ne (fs : List (Json × Json)) (k k2 : Json) (v : Json)
    (h : k2 ≠ k) : dlookupJ (dinsertJ fs k v) k2 = dlookupJ fs k2 := by
  induction fs with
  | nil => simp [dinsertJ, dlookupJ, Ne.symm h]
  | cons p rest ih =>
      obtain ⟨k0, w⟩ := p
      by_cases h0 : k0 = k
      · subst h0
        simp [dinsertJ, dlookupJ, Ne.symm h]
      · simp only [dinsertJ, if_neg h0, dlookupJ]
        by_cases h2 : k0 = k2 <;> simp [h2, ih]

/-! Lemmas about the online/detail flattening. -/

theorem emitsSpec_mutate (rest : List String) (dfs : List (String × Json)) (u : String)
    (gs : List (String × Json)) (hlk : lookupStr dfs u = some (Json.obj gs)) :
    emitsSpec rest (dinsertS dfs u (Json.obj (dinsertS gs "uuid" (Json.str u))))
      = emitsSpec rest dfs := by
  induction rest with
  | nil => rfl
  | cons w ws ih =>
      simp only [emitsSpec]
      by_cases hw : w = u
      · subst hw
        rw [lookupStr_dinsertS_self, hlk]
        simp [dinsertS_idem, ih]
      · rw [lookupStr_dinsertS_ne dfs u w _ hw, ih]

theorem onlineLoop_obj (online : List String) (dfs : List (String × Json)) (acc : List Json)
    (hrec : ∀ p ∈ dfs, ∃ gs, p.2 = Json.obj gs) :
    onlineLoop (online.map Json.str) (Json.obj dfs) acc
      = some (acc.reverse ++ emitsSpec online dfs) := by
  induction online generalizing dfs acc with
  | nil => simp [onlineLoop, emitsSpec]
  | cons u rest ih =>
      simp only [List.map_cons, onlineLoop, detailsContains]
      cases hlk : lookupStr dfs u with
      | none =>
          have hk : hasKey dfs u = false := by simp [hasKey, hlk]
          simp only [hk]
          rw [ih dfs acc hrec]
          simp [emitsSpec, hlk]
      | some v =>
          obtain ⟨gs, hv⟩ := hrec (u, v) (lookupStr_mem dfs u v hlk)
          simp only at hv
          subst hv
          have hk : hasKey dfs u = true := by simp [hasKey, hlk]
          simp only [hk, detailsIndex, hlk, detailsSet]
          rw [ih (dinsertS dfs u (Json.obj (dinsertS gs "uuid" (Json.str u))))
            (Json.obj (dinsertS gs "uuid" (Json.str u)) :: acc)
            (fun p hp => by
              rcases mem_dinsertS dfs u _ p hp with h1 | h1
              · exact ⟨_, h1⟩
              · exact hrec p h1)]
          rw [emitsSpec_mutate rest dfs u gs hlk]
          simp [emitsSpec, hlk, List.append_assoc]

/-- C1: for a streaming payload that is a mapping holding both an `online`
sequence of identifiers and a `data` detail map from identifiers to records,
the shape handling emits exactly the records of the identifiers of `online`
that the detail map holds, in the order of `online`, each with its identifier
injected as its `uuid` field; identifiers absent from the detail map are
skipped, and detail entries not listed in `online` are never emitted (the
output equals `emitsSpec`, which draws only from `online`). -/
theorem C1_online_shape (fields dfs : List (String × Json)) (online : List String)
    (hon : lookupStr fields "online" = some (Json.arr (online.map Json.str)))
    (hda : lookupStr fields "data" = some (Json.obj dfs))
    (hrec : ∀ p ∈ dfs, ∃ gs, p.2 = Json.obj gs) :
    stage1 (Json.obj fields) = some (Json.arr (emitsSpec online dfs)) := by
  have h1 : hasKey fields "online" = true := by simp [hasKey, hon]
  have h2 : hasKey fields "data" = true := by simp [hasKey, hda]
  simp only [stage1, h1, h2, Bool.and_self, if_true, pyGetD, hon, hda, Option.getD_some,
    pyIter]
  rw [onlineLoop_obj online dfs [] hrec]
  simp

/-- Witness for C1 at the example of the specification: `online = [a, b]`,
details for `a`, `b` and `c`; exactly the records of `a` and `b` are emitted
in that order with `uuid` injected, and `c` never appears. -/
theorem C1_online_shape_witness :
    stage1 (Json.obj [("online", Json.arr [Json.str "a", Json.str "b"]),
        ("data", Json.obj [("a", Json.obj [("x", Json.num 1)]), ("b", Json.obj []),
          ("c", Json.obj [("y", Json.num 2)])])])
      = some (Json.arr [Json.obj [("x", Json.num 1), ("uuid", Json.str "a")],
          Json.obj [("uuid", Json.str "b")]]) := by
  have h := C1_online_shape
    [("online", Json.arr [Json.str "a", Json.str "b"]),
      ("data", Json.obj [("a", Json.obj [("x", Json.num 1)]), ("b", Json.obj []),
        ("c", Json.obj [("y", Json.num 2)])])]
    [("a", Json.obj [("x", Json.num 1)]), ("b", Json.obj []), ("c", Json.obj [("y", Json.num 2)])]
    ["a", "b"] rfl rfl
    (by
      intro p hp
      fin_cases hp
      · exact ⟨_, rfl⟩
      · exact ⟨_, rfl⟩
      · exact ⟨_, rfl⟩)
  exact h.trans rfl

/-! Claim C2: conventional list keys. -/

theorem findConv_first (ks1 : List String) (k : String) (ks2 : List String)
    (fields : List (String × Json)) (xs : List Json)
    (hfirst : ∀ k2 ∈ ks1, ∀ ys, lookupStr fields k2 ≠ some (Json.arr ys))
    (hk : lookupStr fields k = some (Json.arr xs)) :
    findConv (ks1 ++ k :: ks2) fields = some xs := by
  induction ks1 with
  | nil => simp [findConv, hk]
  | cons a as ih =>
      have hstep : findConv ((a :: as) ++ k :: ks2) fields = findConv (as ++ k :: ks2) fields := by
        cases hla : lookupStr fields a with
        | none => simp [findConv, hla]
        | some v =>
            cases v with
            | arr ys => exact absurd hla (hfirst a (List.mem_cons_self a as) ys)
            | null => simp [findConv, hla]
            | bool b => simp [findConv, hla]
            | num q => simp [findConv, hla]
            | str s => simp [findConv, hla]
            | obj gs => simp [findConv, hla]
      rw [hstep, ih (fun k2 h2 => hfirst k2 (List.mem_cons_of_mem a h2))]

/-- C2: for a mapping payload (one that lacked the online/detail pair and so
reached the dict handling unchanged), holding one of the conventional keys
`servers`, `nodes`, `clients`, `list`, `data` with a list value, the dispatch
emits exactly that list in its original order; the winning key is the first
key of the fixed order whose value is a list, and every other mapping key is
ignored. -/
theorem C2_conv_keys (fields : List (String × Json)) (ks1 : List String) (k : String)
    (ks2 : List String) (xs : List Json)
    (hsplit : convKeys = ks1 ++ k :: ks2)
    (hfirst : ∀ k2 ∈ ks1, ∀ ys, lookupStr fields k2 ≠ some (Json.arr ys))
    (hk : lookupStr fields k = some (Json.arr xs)) :
    dispatchElems (Json.obj fields) = Dispatch.elems xs := by
  simp only [dispatchElems, hsplit, findConv_first ks1 k ks2 fields xs hfirst hk]

/-- Witness for C2: a mapping `(foo: 7, nodes: [1, 2], data: [9])` dispatches
to the `nodes` list (servers holds no list, nodes precedes data in the fixed
order) and ignores the other keys. -/
theorem C2_conv_keys_witness :
    dispatchElems (Json.obj [("foo", Json.num 7), ("nodes", Json.arr [Json.num 1, Json.num 2]),
        ("data", Json.arr [Json.num 9])])
      = Dispatch.elems [Json.num 1, Json.num 2] := by
  exact C2_conv_keys
    [("foo", Json.num 7), ("nodes", Json.arr [Json.num 1, Json.num 2]),
      ("data", Json.arr [Json.num 9])]
    ["servers"] "nodes" ["clients", "list", "data"] [Json.num 1, Json.num 2]
    rfl
    (by
      intro k2 h2 ys hc
      fin_cases h2
      simp [lookupStr] at hc)
    rfl

/-! Claim C3: per-element validation never aborts the loop. -/

/-- C3: the per-element validation drops a string element whose decode fails
or does not yield a dict, and any element that is not a dict after decoding
(`validateElem` returning `none` captures exactly those cases); dropping such
an element leaves the processing of every remaining element untouched, for
every position of the malformed element. -/
theorem C3_drop_continues (static : List (Json × Json)) (pre post : List Json) (e : Json)
    (he : validateElem e = none) :
    processElems static (pre ++ e :: post) = processElems static (pre ++ post) := by
  induction pre with
  | nil => simp [processElems, he]
  | cons a as ih =>
      cases hva : validateElem a with
      | none => simp [processElems, hva, ih]
      | some fs =>
          cases hpn : processNode static fs with
          | none => simp [processElems, hva, hpn]
          | some fs2 => simp [processElems, hva, hpn, ih]

/-- Witness for C3: a 5-element raw list with one undecodable string element
processes exactly as the 4-element list without it, and yields 4 records. -/
theorem C3_drop_continues_witness :
    validateElem (Json.str "oops") = none
    ∧ processElems [] ([Json.obj [("name", Json.str "a")], Json.obj [("name", Json.str "b")]]
        ++ Json.str "oops" :: [Json.obj [("name", Json.str "c")], Json.obj [("name", Json.str "d")]])
      = processElems [] ([Json.obj [("name", Json.str "a")], Json.obj [("name", Json.str "b")]]
        ++ [Json.obj [("name", Json.str "c")], Json.obj [("name", Json.str "d")]])
    ∧ (processElems [] [Json.obj [("name", Json.str "a")], Json.obj [("name", Json.str "b")],
        Json.str "oops", Json.obj [("name", Json.str "c")],
        Json.obj [("name", Json.str "d")]]).map List.length = some 4 :=
  ⟨rfl,
   C3_drop_continues [] [Json.obj [("name", Json.str "a")], Json.obj [("name", Json.str "b")]]
     [Json.obj [("name", Json.str "c")], Json.obj [("name", Json.str "d")]]
     (Json.str "oops") rfl,
   rfl⟩

/-! Claim C4: the bounded websocket receive loop. -/

/-- C4 counterexample: the first received frame decodes to a mapping whose
`status` equals success, yet the client does not stop with its `data` payload:
the payload has the online/detail pair with `online = 0`, iterating it raises,
the exception is swallowed and the client keeps reading, stopping only at the
second success frame.  This refutes the claim that the client stops with the
extracted payload as soon as a decoded frame is a success mapping. -/
theorem C4_success_frame_not_always_stop :
    parseJson badSuccessFrame
      = some (Json.obj [("status", Json.str "success"),
          ("data", Json.obj [("online", Json.num 0), ("data", Json.obj [])])])
    ∧ wsLoop cframes = some (Json.arr [Json.obj [("name", Json.str "a")]])
    ∧ wsLoop cframes ≠ some (Json.obj [("online", Json.num 0), ("data", Json.obj [])]) := by
  have hv : wsLoop cframes = some (Json.arr [Json.obj [("name", Json.str "a")]]) := by rfl
  refine ⟨by with_unfolding_all rfl, hv, ?_⟩
  rw [hv]
  with_unfolding_all decide

/-- C4 amended: the client attempts to receive at most 3 frames (`wsLoop` is
the loop at 3 remaining attempts, and zero remaining attempts yield no
payload); a close or error frame stops with no payload; a text frame whose
decode fails is skipped silently; a decoded success mapping stops with its
shape-handled `data` payload provided the shape handling does not raise, and
is otherwise skipped silently like a decode failure; a decoded frame that is
not a success mapping is skipped. -/
theorem C4_receive_loop (frames : Nat → Frame) (n : Nat) (s : String)
    (fs : List (String × Json)) (d : Json) :
    wsAttempt frames 0 = none
    ∧ (frames 0 = Frame.closeF → wsAttempt frames (n + 1) = none)
    ∧ (frames 0 = Frame.errF → wsAttempt frames (n + 1) = none)
    ∧ (frames 0 = Frame.text s → parseJson s = none →
        wsAttempt frames (n + 1) = wsAttempt (shiftF frames) n)
    ∧ (frames 0 = Frame.text s → parseJson s = some (Json.obj fs) →
        pyGetN fs "status" = Json.str "success" →
        stage1 (pyGetD fs "data" (Json.obj [])) = some d →
        wsAttempt frames (n + 1) = some d)
    ∧ (frames 0 = Frame.text s → parseJson s = some (Json.obj fs) →
        pyGetN fs "status" = Json.str "success" →
        stage1 (pyGetD fs "data" (Json.obj [])) = none →
        wsAttempt frames (n + 1) = wsAttempt (shiftF frames) n)
    ∧ (frames 0 = Frame.text s → parseJson s = some (Json.obj fs) →
        pyGetN fs "status" ≠ Json.str "success" →
        wsAttempt frames (n + 1) = wsAttempt (shiftF frames) n)
    ∧ wsLoop frames = wsAttempt frames 3 := by
  refine ⟨rfl, ?_, ?_, ?_, ?_, ?_, ?_, rfl⟩
  · intro h0
    simp [wsAttempt, h0]
  · intro h0
    simp [wsAttempt, h0]
  · intro h0 hp
    simp [wsAttempt, h0, hp]
  · intro h0 hp hst hsh
    simp [wsAttempt, h0, hp, hst, hsh]
  · intro h0 hp hst hsh
    simp [wsAttempt, h0, hp, hst, hsh]
  · intro h0 hp hst
    simp [wsAttempt, h0, hp, hst]

/-- Witness for C4 amended: a stream of good success frames stops at the
first attempt with the shape-handled payload. -/
theorem C4_receive_loop_witness :
    wsAttempt (fun _ => Frame.text goodSuccessFrame) 3
      = some (Json.arr [Json.obj [("name", Json.str "a")]]) :=
  (C4_receive_loop (fun _ => Frame.text goodSuccessFrame) 2 goodSuccessFrame
      [("status", Json.str "success"), ("data", Json.arr [Json.obj [("name", Json.str "a")]])]
      (Json.arr [Json.obj [("name", Json.str "a")]])).2.2.2.2.1 rfl rfl rfl rfl

/-! Claim C5: name resolution during reconciliation. -/

/-- C5: every successfully reconciled record carries a present, non-null
`name`; when the raw name is absent (null) or the literal Unknown and the
static match provides a truthy name, the output name is that static name
(so a record missing its name with a match named Box1 ends up named Box1);
when no static match provides a name (no truthy key, no match, or a match
whose stored name is absent) and the raw name is absent, the output name is
the fixed placeholder 未知节点, the string the specification renders as
unknown node. -/
theorem C5_name_resolution (static : List (Json × Json)) (fields : List (String × Json)) :
    (∀ F, reconcile static fields = some F →
        ∃ v, lookupStr F "name" = some v ∧ v ≠ Json.null)
    ∧ (∀ sfs nv,
        (pyGetN fields "name" = Json.null ∨ pyGetN fields "name" = Json.str "Unknown") →
        pyTruthy (reconKey fields) = true →
        pyHashable (reconKey fields) = true →
        dlookupJ static (reconKey fields) = some (Json.obj sfs) →
        lookupStr sfs "name" = some nv → pyTruthy nv = true →
        reconcile static fields = some (dinsertS (backfill fields sfs) "name" nv)
          ∧ lookupStr (dinsertS (backfill fields sfs) "name" nv) "name" = some nv)
    ∧ ((pyTruthy (reconKey fields) = false ∨
          (pyHashable (reconKey fields) = true ∧ dlookupJ static (reconKey fields) = none) ∨
          (∃ sfs, pyHashable (reconKey fields) = true ∧
            dlookupJ static (reconKey fields) = some (Json.obj sfs) ∧
            lookupStr sfs "name" = none)) →
        pyGetN fields "name" = Json.null →
        ∃ F, reconcile static fields = some F
          ∧ lookupStr F "name" = some (Json.str "未知节点")) := by
  refine ⟨?_, ?_, ?_⟩
  · intro F hF
    simp only [reconcile, Option.map_eq_some'] at hF
    obtain ⟨p, hp, hFeq⟩ := hF
    subst hFeq
    refine ⟨_, lookupStr_dinsertS_self _ _ _, ?_⟩
    by_cases h : pyTruthy p.2 = true
    · simp only [h, if_true]
      intro hnull
      rw [hnull] at h
      simp [pyTruthy] at h
    · simp only [Bool.not_eq_true] at h
      simp [h]
  · intro sfs nv hname hkey hhash hmatch hsname htru
    have hcond : pyTruthy (pyGetN fields "name") = false ∨
        pyGetN fields "name" = Json.str "Unknown" := by
      rcases hname with h | h
      · left
        rw [h]
        rfl
      · right
        exact h
    refine ⟨?_, lookupStr_dinsertS_self _ _ _⟩
    simp only [reconcile, hkey, hhash, hmatch, if_true]
    rw [if_pos hcond, hsname]
    simp [htru]
  · intro hcase hname
    have hfalse : pyTruthy (pyGetN fields "name") = false := by
      rw [hname]
      rfl
    rcases hcase with hk | ⟨hh, hm⟩ | ⟨sfs, hh, hm, hn⟩
    · refine ⟨dinsertS fields "name" (Json.str "未知节点"), ?_, lookupStr_dinsertS_self _ _ _⟩
      simp only [reconcile, hk]
      simp [hname, pyTruthy]
    · by_cases hk : pyTruthy (reconKey fields) = true
      · refine ⟨dinsertS fields "name" (Json.str "未知节点"), ?_, lookupStr_dinsertS_self _ _ _⟩
        simp only [reconcile, hk, hh, hm, if_true]
        simp [hname, pyTruthy]
      · simp only [Bool.not_eq_true] at hk
        refine ⟨dinsertS fields "name" (Json.str "未知节点"), ?_, lookupStr_dinsertS_self _ _ _⟩
        simp only [reconcile, hk]
        simp [hname, pyTruthy]
    · by_cases hk : pyTruthy (reconKey fields) = true
      · have hcond : pyTruthy (pyGetN fields "name") = false ∨
            pyGetN fields "name" = Json.str "Unknown" := Or.inl hfalse
        refine ⟨dinsertS (backfill fields sfs) "name" (Json.str "未知节点"), ?_,
          lookupStr_dinsertS_self _ _ _⟩
        simp only [reconcile, hk, hh, hm, if_true]
        rw [if_pos hcond, hn]
        simp [hname, pyTruthy]
      · simp only [Bool.not_eq_true] at hk
        refine ⟨dinsertS fields "name" (Json.str "未知节点"), ?_, lookupStr_dinsertS_self _ _ _⟩
        simp only [reconcile, hk]
        simp [hname, pyTruthy]

/-- Witness for C5: a record carrying only `uuid = u1`, against a static
index matching it to a node named Box1, reconciles with name Box1; the same
record against an empty index reconciles with the placeholder name. -/
theorem C5_name_resolution_witness :
    reconcile [(Json.str "u1", Json.obj [("id", Json.str "u1"), ("name", Json.str "Box1")])]
        [("uuid", Json.str "u1")]
      = some (dinsertS (backfill [("uuid", Json.str "u1")]
          [("id", Json.str "u1"), ("name", Json.str "Box1")]) "name" (Json.str "Box1"))
    ∧ (∃ F, reconcile [] [("uuid", Json.str "u1")] = some F
        ∧ lookupStr F "name" = some (Json.str "未知节点")) :=
  ⟨((C5_name_resolution
      [(Json.str "u1", Json.obj [("id", Json.str "u1"), ("name", Json.str "Box1")])]
      [("uuid", Json.str "u1")]).2.1
      [("id", Json.str "u1"), ("name", Json.str "Box1")] (Json.str "Box1")
      (Or.inl rfl) rfl rfl rfl rfl rfl).1,
   (C5_name_resolution [] [("uuid", Json.str "u1")]).2.2
      (Or.inr (Or.inl ⟨rfl, rfl⟩)) rfl⟩

/-! Claim C6: RAM normalization. -/

/-- C6 counterexample: a record whose `ram` group is a dict without a
positive total, next to a flat `mem_total`, derives nothing at all: the
fallback branch is an elif on the ram group being a dict, so it is not taken,
and no `ram_total_gb` appears even though `mem_total` is present.  The claim
says the fallback applies whenever the first branch does not. -/
theorem C6_mem_total_unused_when_ram_total_zero :
    lookupStr ramZeroNode "mem_total" = some (Json.num 1073741824)
    ∧ ramStep ramZeroNode = some ramZeroNode
    ∧ lookupStr ramZeroNode "ram_total_gb" = none := by
  refine ⟨by with_unfolding_all rfl, by with_unfolding_all rfl, by with_unfolding_all rfl⟩

/-- C6 amended: when `ram` is a dict with numeric total greater than 0 the
step derives `ram_total_gb` as total over 2 to the 30, `ram_used_gb` as used
over 2 to the 30 (both rounded to 2 decimals) and `ram_usage_percent` as used
over total times 100 (1 decimal); the fallback to a flat `mem_total` applies
only when `ram` is absent or not a dict (not merely when its total is not
positive), derives only `ram_total_gb`, and never touches
`ram_usage_percent`. -/
theorem C6_ram_normalization (fields rfs : List (String × Json)) (t u m : ℚ) :
    (lookupStr fields "ram" = some (Json.obj rfs) →
      pyGetD rfs "total" (Json.num 0) = Json.num t → 0 < t →
      pyGetD rfs "used" (Json.num 0) = Json.num u →
      ramStep fields = some (dinsertS (dinsertS (dinsertS fields
        "ram_total_gb" (Json.num (roundTo 2 (t / 1024 ^ 3))))
        "ram_used_gb" (Json.num (roundTo 2 (u / 1024 ^ 3))))
        "ram_usage_percent" (Json.num (roundTo 1 (u / t * 100)))))
    ∧ ((lookupStr fields "ram" = none ∨
          (∃ v, lookupStr fields "ram" = some v ∧ isObjJ v = false)) →
        lookupStr fields "mem_total" = some (Json.num m) →
        ramStep fields
          = some (dinsertS fields "ram_total_gb" (Json.num (roundTo 2 (m / 1024 ^ 3))))
          ∧ lookupStr (dinsertS fields "ram_total_gb" (Json.num (roundTo 2 (m / 1024 ^ 3))))
              "ram_usage_percent" = lookupStr fields "ram_usage_percent") := by
  constructor
  · intro hram htot hpos hused
    simp only [ramStep, hram, htot, hused, pyNum, if_pos hpos]
  · intro hcase hmem
    have hstep : ramStep fields
        = some (dinsertS fields "ram_total_gb" (Json.num (roundTo 2 (m / 1024 ^ 3)))) := by
      rcases hcase with h | ⟨v, hv, hobj⟩
      · simp only [ramStep, h, hmem, pyGetD, Option.getD_some, pyNum]
      · cases v with
        | obj gs => simp [isObjJ] at hobj
        | null => simp only [ramStep, hv, hmem, pyGetD, Option.getD_some, pyNum]
        | bool b => simp only [ramStep, hv, hmem, pyGetD, Option.getD_some, pyNum]
        | num q => simp only [ramStep, hv, hmem, pyGetD, Option.getD_some, pyNum]
        | str s => simp only [ramStep, hv, hmem, pyGetD, Option.getD_some, pyNum]
        | arr xs => simp only [ramStep, hv, hmem, pyGetD, Option.getD_some, pyNum]
    exact ⟨hstep, lookupStr_dinsertS_ne _ _ _ _ (by decide)⟩

/-- Witness for C6 at the example of the specification: 8 GiB total and
4 GiB used derive 8.0 GB, 4.0 GB and 50.0 percent; and a record with only a
flat `mem_total` of one GiB derives exactly `ram_total_gb = 1`. -/
theorem C6_ram_normalization_witness :
    ramStep [("ram", Json.obj [("total", Json.num 8589934592), ("used", Json.num 4294967296)])]
      = some [("ram", Json.obj [("total", Json.num 8589934592), ("used", Json.num 4294967296)]),
          ("ram_total_gb", Json.num 8), ("ram_used_gb", Json.num 4),
          ("ram_usage_percent", Json.num 50)]
    ∧ ramStep [("mem_total", Json.num 1073741824)]
      = some [("mem_total", Json.num 1073741824), ("ram_total_gb", Json.num 1)] := by
  constructor
  · have h := (C6_ram_normalization
      [("ram", Json.obj [("total", Json.num 8589934592), ("used", Json.num 4294967296)])]
      [("total", Json.num 8589934592), ("used", Json.num 4294967296)]
      8589934592 4294967296 0).1 rfl rfl (by norm_num) rfl
    refine h.trans ?_
    with_unfolding_all rfl
  · have h := ((C6_ram_normalization [("mem_total", Json.num 1073741824)] [] 0 0 1073741824).2
      (Or.inl rfl) rfl).1
    refine h.trans ?_
    with_unfolding_all rfl

/-! Claim C7: independence of the metric steps. -/

theorem numLike_pyNum (v : Json) (h : numLike v = true) : ∃ q, pyNum v = some q := by
  cases v with
  | num q => exact ⟨q, rfl⟩
  | bool b => exact ⟨if b then 1 else 0, rfl⟩
  | null => simp [numLike] at h
  | str s => simp [numLike] at h
  | arr xs => simp [numLike] at h
  | obj fs => simp [numLike] at h

theorem cpuStep_ok (fields : List (String × Json)) (h : cpuOk fields = true) :
    ∃ g, cpuStep fields = some g ∧
      ∀ key, key ∉ (["cpu_usage_percent"] : List String) →
        lookupStr g key = lookupStr fields key := by
  cases hc : lookupStr fields "cpu" with
  | none => exact ⟨fields, by simp [cpuStep, hc], fun key _ => rfl⟩
  | some v =>
      cases v with
      | obj cfs =>
          simp only [cpuOk, hc, Bool.or_eq_true, decide_eq_true_eq] at h
          by_cases hnull : pyGetD cfs "usage" (Json.num 0) = Json.null
          · exact ⟨fields, by simp [cpuStep, hc, hnull], fun key _ => rfl⟩
          · have hnl : numLike (pyGetD cfs "usage" (Json.num 0)) = true := by
              rcases h with h | h
              · exact absurd h hnull
              · exact h
            obtain ⟨q, hq⟩ := numLike_pyNum _ hnl
            have hfl : pyFloat (pyGetD cfs "usage" (Json.num 0)) = some q := by
              cases hv : pyGetD cfs "usage" (Json.num 0) with
              | num q2 => rw [hv] at hq; exact hq
              | bool b => rw [hv] at hq; exact hq
              | null => rw [hv] at hnl; simp [numLike] at hnl
              | str s => rw [hv] at hnl; simp [numLike] at hnl
              | arr xs => rw [hv] at hnl; simp [numLike] at hnl
              | obj fs2 => rw [hv] at hnl; simp [numLike] at hnl
            refine ⟨dinsertS fields "cpu_usage_percent" (Json.num (roundTo 2 q)), ?_, ?_⟩
            · simp only [cpuStep, hc, if_neg hnull, hfl]
            · intro key hk
              exact lookupStr_dinsertS_ne _ _ _ _ (by simp at hk; exact hk)
      | null => exact ⟨fields, by simp [cpuStep, hc], fun key _ => rfl⟩
      | bool b => exact ⟨fields, by simp [cpuStep, hc], fun key _ => rfl⟩
      | num q => exact ⟨fields, by simp [cpuStep, hc], fun key _ => rfl⟩
      | str s => exact ⟨fields, by simp [cpuStep, hc], fun key _ => rfl⟩
      | arr xs => exact ⟨fields, by simp [cpuStep, hc], fun key _ => rfl⟩

theorem ramStep_ok (fields : List (String × Json)) (h : ramOk fields = true) :
    ∃ g, ramStep fields = some g ∧
      ∀ key, key ∉ (["ram_total_gb", "ram_used_gb", "ram_usage_percent"] : List String) →
        lookupStr g key = lookupStr fields key := by
  have fallback : lookupStr fields "ram" = none ∨
      (∃ v, lookupStr fields "ram" = some v ∧ isObjJ v = false) →
      numLike (pyGetD fields "mem_total" (Json.num 0)) = true →
      ∃ g, ramStep fields = some g ∧
        ∀ key, key ∉ (["ram_total_gb", "ram_used_gb", "ram_usage_percent"] : List String) →
          lookupStr g key = lookupStr fields key := by
    intro hcase hnum
    obtain ⟨q, hq⟩ := numLike_pyNum _ hnum
    cases hm : lookupStr fields "mem_total" with
    | none =>
        rcases hcase with hr | ⟨v, hv, hobj⟩
        · exact ⟨fields, by simp [ramStep, hr, hm], fun key _ => rfl⟩
        · cases v with
          | obj gs => simp [isObjJ] at hobj
          | null => exact ⟨fields, by simp [ramStep, hv, hm], fun key _ => rfl⟩
          | bool b => exact ⟨fields, by simp [ramStep, hv, hm], fun key _ => rfl⟩
          | num q2 => exact ⟨fields, by simp [ramStep, hv, hm], fun key _ => rfl⟩
          | str s => exact ⟨fields, by simp [ramStep, hv, hm], fun key _ => rfl⟩
          | arr xs => exact ⟨fields, by simp [ramStep, hv, hm], fun key _ => rfl⟩
    | some w =>
        have hpres : ∀ key, key ∉ (["ram_total_gb", "ram_used_gb",
            "ram_usage_percent"] : List String) →
            lookupStr (dinsertS fields "ram_total_gb" (Json.num (roundTo 2 (q / 1024 ^ 3)))) key
              = lookupStr fields key := by
          intro key hk
          simp only [List.mem_cons, List.not_mem_nil, or_false, not_or] at hk
          exact lookupStr_dinsertS_ne _ _ _ _ hk.1
        rcases hcase with hr | ⟨v, hv, hobj⟩
        · exact ⟨_, by simp only [ramStep, hr, hm, hq], hpres⟩
        · cases v with
          | obj gs => simp [isObjJ] at hobj
          | null => exact ⟨_, by simp only [ramStep, hv, hm, hq], hpres⟩
          | bool b => exact ⟨_, by simp only [ramStep, hv, hm, hq], hpres⟩
          | num q2 => exact ⟨_, by simp only [ramStep, hv, hm, hq], hpres⟩
          | str s => exact ⟨_, by simp only [ramStep, hv, hm, hq], hpres⟩
          | arr xs => exact ⟨_, by simp only [ramStep, hv, hm, hq], hpres⟩
  cases hr : lookupStr fields "ram" with
  | none =>
      simp only [ramOk, hr] at h
      exact fallback (Or.inl hr) h
  | some v =>
      cases v with
      | obj rfs =>
          simp only [ramOk, hr, Bool.and_eq_true] at h
          obtain ⟨q1, hq1⟩ := numLike_pyNum _ h.1
          obtain ⟨q2, hq2⟩ := numLike_pyNum _ h.2
          by_cases hpos : 0 < q1
          · refine ⟨dinsertS (dinsertS (dinsertS fields
                "ram_total_gb" (Json.num (roundTo 2 (q1 / 1024 ^ 3))))
                "ram_used_gb" (Json.num (roundTo 2 (q2 / 1024 ^ 3))))
                "ram_usage_percent" (Json.num (roundTo 1 (q2 / q1 * 100))),
              by simp only [ramStep, hr, hq1, hq2, if_pos hpos], ?_⟩
            intro key hk
            simp only [List.mem_cons, List.not_mem_nil, or_false, not_or] at hk
            rw [lookupStr_dinsertS_ne _ _ _ _ hk.2.2, lookupStr_dinsertS_ne _ _ _ _ hk.2.1,
              lookupStr_dinsertS_ne _ _ _ _ hk.1]
          · exact ⟨fields, by simp only [ramStep, hr, hq1, if_neg hpos], fun key _ => rfl⟩
      | null =>
          simp only [ramOk, hr] at h
          exact fallback (Or.inr ⟨Json.null, hr, rfl⟩) h
      | bool b =>
          simp only [ramOk, hr] at h
          exact fallback (Or.inr ⟨Json.bool b, hr, rfl⟩) h
      | num q =>
          simp only [ramOk, hr] at h
          exact fallback (Or.inr ⟨Json.num q, hr, rfl⟩) h
      | str s =>
          simp only [ramOk, hr] at h
          exact fallback (Or.inr ⟨Json.str s, hr, rfl⟩) h
      | arr xs =>
          simp only [ramOk, hr] at h
          exact fallback (Or.inr ⟨Json.arr xs, hr, rfl⟩) h

theorem diskStep_ok (fields : List (String × Json)) (h : diskOk fields = true) :
    ∃ g, diskStep fields = some g ∧
      ∀ key, key ∉ (["disk_total_gb", "disk_used_gb", "disk_usage_percent"] : List String) →
        lookupStr g key = lookupStr fields key := by
  have fallback : lookupStr fields "disk" = none ∨
      (∃ v, lookupStr fields "disk" = some v ∧ isObjJ v = false) →
      numLike (pyGetD fields "disk_total" (Json.num 0)) = true →
      ∃ g, diskStep fields = some g ∧
        ∀ key, key ∉ (["disk_total_gb", "disk_used_gb", "disk_usage_percent"] : List String) →
          lookupStr g key = lookupStr fields key := by
    intro hcase hnum
    obtain ⟨q, hq⟩ := numLike_pyNum _ hnum
    cases hm : lookupStr fields "disk_total" with
    | none =>
        rcases hcase with hr | ⟨v, hv, hobj⟩
        · exact ⟨fields, by simp [diskStep, hr, hm], fun key _ => rfl⟩
        · cases v with
          | obj gs => simp [isObjJ] at hobj
          | null => exact ⟨fields, by simp [diskStep, hv, hm], fun key _ => rfl⟩
          | bool b => exact ⟨fields, by simp [diskStep, hv, hm], fun key _ => rfl⟩
          | num q2 => exact ⟨fields, by simp [diskStep, hv, hm], fun key _ => rfl⟩
          | str s => exact ⟨fields, by simp [diskStep, hv, hm], fun key _ => rfl⟩
          | arr xs => exact ⟨fields, by simp [diskStep, hv, hm], fun key _ => rfl⟩
    | some w =>
        have hpres : ∀ key, key ∉ (["disk_total_gb", "disk_used_gb",
            "disk_usage_percent"] : List String) →
            lookupStr (dinsertS fields "disk_total_gb" (Json.num (roundTo 2 (q / 1024 ^ 3)))) key
              = lookupStr fields key := by
          intro key hk
          simp only [List.mem_cons, List.not_mem_nil, or_false, not_or] at hk
          exact lookupStr_dinsertS_ne _ _ _ _ hk.1
        rcases hcase with hr | ⟨v, hv, hobj⟩
        · exact ⟨_, by simp only [diskStep, hr, hm, hq], hpres⟩
        · cases v with
          | obj gs => simp [isObjJ] at hobj
          | null => exact ⟨_, by simp only [diskStep, hv, hm, hq], hpres⟩
          | bool b => exact ⟨_, by simp only [diskStep, hv, hm, hq], hpres⟩
          | num q2 => exact ⟨_, by simp only [diskStep, hv, hm, hq], hpres⟩
          | str s => exact ⟨_, by simp only [diskStep, hv, hm, hq], hpres⟩
          | arr xs => exact ⟨_, by simp only [diskStep, hv, hm, hq], hpres⟩
  cases hr : lookupStr fields "disk" with
  | none =>
      simp only [diskOk, hr] at h
      exact fallback (Or.inl hr) h
  | some v =>
      cases v with
      | obj dfs =>
          simp only [diskOk, hr, Bool.and_eq_true] at h
          obtain ⟨q1, hq1⟩ := numLike_pyNum _ h.1
          obtain ⟨q2, hq2⟩ := numLike_pyNum _ h.2
          by_cases hpos : 0 < q1
          · refine ⟨dinsertS (dinsertS (dinsertS fields
                "disk_total_gb" (Json.num (roundTo 2 (q1 / 1024 ^ 3))))
                "disk_used_gb" (Json.num (roundTo 2 (q2 / 1024 ^ 3))))
                "disk_usage_percent" (Json.num (roundTo 1 (q2 / q1 * 100))),
              by simp only [diskStep, hr, hq1, hq2, if_pos hpos], ?_⟩
            intro key hk
            simp only [List.mem_cons, List.not_mem_nil, or_false, not_or] at hk
            rw [lookupStr_dinsertS_ne _ _ _ _ hk.2.2, lookupStr_dinsertS_ne _ _ _ _ hk.2.1,
              lookupStr_dinsertS_ne _ _ _ _ hk.1]
          · exact ⟨fields, by simp only [diskStep, hr, hq1, if_neg hpos], fun key _ => rfl⟩
      | null =>
          simp only [diskOk, hr] at h
          exact fallback (Or.inr ⟨Json.null, hr, rfl⟩) h
      | bool b =>
          simp only [diskOk, hr] at h
          exact fallback (Or.inr ⟨Json.bool b, hr, rfl⟩) h
      | num q =>
          simp only [diskOk, hr] at h
          exact fallback (Or.inr ⟨Json.num q, hr, rfl⟩) h
      | str s =>
          simp only [diskOk, hr] at h
          exact fallback (Or.inr ⟨Json.str s, hr, rfl⟩) h
      | arr xs =>
          simp only [diskOk, hr] at h
          exact fallback (Or.inr ⟨Json.arr xs, hr, rfl⟩) h

theorem netStep_ok (fields : List (String × Json)) (h : netOk fields = true) :
    ∃ g, netStep fields = some g ∧
      ∀ key, key ∉ (["net_up_str", "net_down_str", "traffic_up_str",
          "traffic_down_str"] : List String) →
        lookupStr g key = lookupStr fields key := by
  cases hn : lookupStr fields "network" with
  | none => exact ⟨fields, by simp [netStep, hn], fun key _ => rfl⟩
  | some v =>
      cases v with
      | obj nfs =>
          simp only [netOk, hn, Bool.and_eq_true] at h
          obtain ⟨q1, hq1⟩ := numLike_pyNum _ h.1.1.1
          obtain ⟨q2, hq2⟩ := numLike_pyNum _ h.1.1.2
          obtain ⟨q3, hq3⟩ := numLike_pyNum _ h.1.2
          obtain ⟨q4, hq4⟩ := numLike_pyNum _ h.2
          refine ⟨dinsertS (dinsertS (dinsertS (dinsertS fields
              "net_up_str" (Json.str (fmt_speed q1)))
              "net_down_str" (Json.str (fmt_speed q2)))
              "traffic_up_str" (Json.str (fmt_traffic q3)))
              "traffic_down_str" (Json.str (fmt_traffic q4)),
            by simp only [netStep, hn, hq1, hq2, hq3, hq4], ?_⟩
          intro key hk
          simp only [List.mem_cons, List.not_mem_nil, or_false, not_or] at hk
          rw [lookupStr_dinsertS_ne _ _ _ _ hk.2.2.2, lookupStr_dinsertS_ne _ _ _ _ hk.2.2.1,
            lookupStr_dinsertS_ne _ _ _ _ hk.2.1, lookupStr_dinsertS_ne _ _ _ _ hk.1]
      | null => exact ⟨fields, by simp [netStep, hn], fun key _ => rfl⟩
      | bool b => exact ⟨fields, by simp [netStep, hn], fun key _ => rfl⟩
      | num q => exact ⟨fields, by simp [netStep, hn], fun key _ => rfl⟩
      | str s => exact ⟨fields, by simp [netStep, hn], fun key _ => rfl⟩
      | arr xs => exact ⟨fields, by simp [netStep, hn], fun key _ => rfl⟩

theorem uptimeStep_ok (fields : List (String × Json)) (h : uptimeOk fields = true) :
    ∃ g, uptimeStep fields = some g := by
  cases hu : lookupStr fields "uptime" with
  | none => exact ⟨fields, by simp [uptimeStep, hu]⟩
  | some v =>
      simp only [uptimeOk, hu] at h
      obtain ⟨q, hq⟩ := numLike_pyNum _ h
      have hget : pyGetD fields "uptime" (Json.num 0) = v := by
        simp [pyGetD, hu]
      refine ⟨dinsertS fields "uptime_str"
        (Json.str (toString (⌊q / 86400⌋ : ℤ) ++ "天 "
          ++ toString (⌊(q - 86400 * ((⌊q / 86400⌋ : ℤ) : ℚ)) / 3600⌋ : ℤ) ++ "小时")), ?_⟩
      simp only [uptimeStep, hu, hget, hq]

theorem loadStep_ok (fields : List (String × Json)) :
    ∃ g, loadStep fields = some g := by
  cases hl : lookupStr fields "load" with
  | none => exact ⟨fields, by simp [loadStep, hl]⟩
  | some v =>
      cases v with
      | obj lfs =>
          exact ⟨dinsertS (dinsertS (dinsertS fields
            "load_1" (pyGetN lfs "load1"))
            "load_5" (pyGetN lfs "load5"))
            "load_15" (pyGetN lfs "load15"), by simp only [loadStep, hl]⟩
      | null => exact ⟨fields, by simp [loadStep, hl]⟩
      | bool b => exact ⟨fields, by simp [loadStep, hl]⟩
      | num q => exact ⟨fields, by simp [loadStep, hl]⟩
      | str s => exact ⟨fields, by simp [loadStep, hl]⟩
      | arr xs => exact ⟨fields, by simp [loadStep, hl]⟩

theorem cpuOk_congr (g f : List (String × Json))
    (h1 : lookupStr g "cpu" = lookupStr f "cpu") : cpuOk g = cpuOk f := by
  simp only [cpuOk, h1]

theorem ramOk_congr (g f : List (String × Json))
    (h1 : lookupStr g "ram" = lookupStr f "ram")
    (h2 : lookupStr g "mem_total" = lookupStr f "mem_total") : ramOk g = ramOk f := by
  simp only [ramOk, pyGetD, h1, h2]

theorem diskOk_congr (g f : List (String × Json))
    (h1 : lookupStr g "disk" = lookupStr f "disk")
    (h2 : lookupStr g "disk_total" = lookupStr f "disk_total") : diskOk g = diskOk f := by
  simp only [diskOk, pyGetD, h1, h2]

theorem netOk_congr (g f : List (String × Json))
    (h1 : lookupStr g "network" = lookupStr f "network") : netOk g = netOk f := by
  simp only [netOk, h1]

theorem uptimeOk_congr (g f : List (String × Json))
    (h1 : lookupStr g "uptime" = lookupStr f "uptime") : uptimeOk g = uptimeOk f := by
  simp only [uptimeOk, h1]

/-- C7 counterexample: a record whose cpu group is a dict holding the
non-numeric usage string xx makes the cpu step raise (`float` fails), and in
a batch holding a well-formed record followed by that record the whole
processing loop aborts, losing the well-formed record too: a malformed value
inside one metric group does prevent the normalization of the other groups
and escapes as an unhandled fault. -/
theorem C7_bad_cpu_value_aborts_all :
    cpuStep [("cpu", Json.obj [("usage", Json.str "xx")])] = none
    ∧ (processElems [] [goodNode]).isSome = true
    ∧ processElems [] [goodNode, badCpuNode] = none := by
  refine ⟨by with_unfolding_all rfl, by with_unfolding_all rfl, by with_unfolding_all rfl⟩

/-- C7 amended: each metric step is independent and skippable for a group
that is absent or not a dict (the step returns the record unchanged, so a
malformed-as-non-dict group never prevents the other steps; for ram and disk
this also needs the flat fallback key absent, since that fallback belongs to
the same step), and on a record whose metric groups contain only numeric (or
boolean) values where arithmetic is performed, no step raises; but a group
that is a dict holding a value of the wrong type makes its step raise,
aborting the whole operation (see the counterexample). -/
theorem C7_metric_steps (fields : List (String × Json)) :
    (groupNotDict fields "cpu" → cpuStep fields = some fields)
    ∧ (groupNotDict fields "ram" → lookupStr fields "mem_total" = none →
        ramStep fields = some fields)
    ∧ (groupNotDict fields "disk" → lookupStr fields "disk_total" = none →
        diskStep fields = some fields)
    ∧ (groupNotDict fields "network" → netStep fields = some fields)
    ∧ (lookupStr fields "uptime" = none → uptimeStep fields = some fields)
    ∧ (groupNotDict fields "load" → loadStep fields = some fields)
    ∧ (wellTypedMetrics fields = true → (normalizeMetrics fields).isSome = true) := by
  refine ⟨?_, ?_, ?_, ?_, ?_, ?_, ?_⟩
  · rintro (h | ⟨v, hv, hobj⟩)
    · simp [cpuStep, h]
    · cases v with
      | obj gs => simp [isObjJ] at hobj
      | null => simp [cpuStep, hv]
      | bool b => simp [cpuStep, hv]
      | num q => simp [cpuStep, hv]
      | str s => simp [cpuStep, hv]
      | arr xs => simp [cpuStep, hv]
  · rintro (h | ⟨v, hv, hobj⟩) hmem
    · simp [ramStep, h, hmem]
    · cases v with
      | obj gs => simp [isObjJ] at hobj
      | null => simp [ramStep, hv, hmem]
      | bool b => simp [ramStep, hv, hmem]
      | num q => simp [ramStep, hv, hmem]
      | str s => simp [ramStep, hv, hmem]
      | arr xs => simp [ramStep, hv, hmem]
  · rintro (h | ⟨v, hv, hobj⟩) hmem
    · simp [diskStep, h, hmem]
    · cases v with
      | obj gs => simp [isObjJ] at hobj
      | null => simp [diskStep, hv, hmem]
      | bool b => simp [diskStep, hv, hmem]
      | num q => simp [diskStep, hv, hmem]
      | str s => simp [diskStep, hv, hmem]
      | arr xs => simp [diskStep, hv, hmem]
  · rintro (h | ⟨v, hv, hobj⟩)
    · simp [netStep, h]
    · cases v with
      | obj gs => simp [isObjJ] at hobj
      | null => simp [netStep, hv]
      | bool b => simp [netStep, hv]
      | num q => simp [netStep, hv]
      | str s => simp [netStep, hv]
      | arr xs => simp [netStep, hv]
  · intro h
    simp [uptimeStep, h]
  · rintro (h | ⟨v, hv, hobj⟩)
    · simp [loadStep, h]
    · cases v with
      | obj gs => simp [isObjJ] at hobj
      | null => simp [loadStep, hv]
      | bool b => simp [loadStep, hv]
      | num q => simp [loadStep, hv]
      | str s => simp [loadStep, hv]
      | arr xs => simp [loadStep, hv]
  · intro h
    simp only [wellTypedMetrics, Bool.and_eq_true] at h
    obtain ⟨⟨⟨⟨hcpu, hram⟩, hdisk⟩, hnet⟩, hup⟩ := h
    obtain ⟨g1, hg1, hp1⟩ := cpuStep_ok fields hcpu
    have hram1 : ramOk g1 = true := by
      rw [ramOk_congr g1 fields (hp1 _ (by decide)) (hp1 _ (by decide))]
      exact hram
    obtain ⟨g2, hg2, hp2⟩ := ramStep_ok g1 hram1
    have hdisk2 : diskOk g2 = true := by
      rw [diskOk_congr g2 g1 (hp2 _ (by decide)) (hp2 _ (by decide)),
        diskOk_congr g1 fields (hp1 _ (by decide)) (hp1 _ (by decide))]
      exact hdisk
    obtain ⟨g3, hg3, hp3⟩ := diskStep_ok g2 hdisk2
    have hnet3 : netOk g3 = true := by
      rw [netOk_congr g3 g2 (hp3 _ (by decide)), netOk_congr g2 g1 (hp2 _ (by decide)),
        netOk_congr g1 fields (hp1 _ (by decide))]
      exact hnet
    obtain ⟨g4, hg4, hp4⟩ := netStep_ok g3 hnet3
    have hup4 : uptimeOk g4 = true := by
      rw [uptimeOk_congr g4 g3 (hp4 _ (by decide)), uptimeOk_congr g3 g2 (hp3 _ (by decide)),
        uptimeOk_congr g2 g1 (hp2 _ (by decide)), uptimeOk_congr g1 fields (hp1 _ (by decide))]
      exact hup
    obtain ⟨g5, hg5⟩ := uptimeStep_ok g4 hup4
    obtain ⟨g6, hg6⟩ := loadStep_ok g5
    simp [normalizeMetrics, hg1, hg2, hg3, hg4, hg5, hg6]

/-- Witness for C7 amended: a non-dict cpu group is skipped unchanged, and a
record with a well-typed ram group and uptime normalizes without a fault. -/
theorem C7_metric_steps_witness :
    cpuStep [("cpu", Json.num 3)] = some [("cpu", Json.num 3)]
    ∧ (normalizeMetrics [("uptime", Json.num 90000),
        ("ram", Json.obj [("total", Json.num 8589934592), ("used", Json.num 4294967296)])]).isSome
      = true :=
  ⟨(C7_metric_steps [("cpu", Json.num 3)]).1 (Or.inr ⟨Json.num 3, rfl, rfl⟩),
   (C7_metric_steps [("uptime", Json.num 90000),
      ("ram", Json.obj [("total", Json.num 8589934592), ("used", Json.num 4294967296)])]).2.2.2.2.2.2
      (by with_unfolding_all rfl)⟩

/-! Claim C8: when the no-data message is surfaced. -/

/-- C8 counterexample: a non-empty raw list whose only element is dropped as
malformed yields an empty report (the header-only output), not the no-data
message: the emptiness check runs on the extracted payload before per-element
validation, so zero valid records after dropping does not surface no data. -/
theorem C8_all_dropped_is_empty_report :
    realtimeOutcome [] (Json.arr [Json.str "oops"]) = RealtimeOutcome.report []
    ∧ RealtimeOutcome.report [] ≠ RealtimeOutcome.noData := by
  exact ⟨by with_unfolding_all rfl, by decide⟩

/-- C8 amended: the no-data message is surfaced exactly when the extracted
payload is falsy (absent, empty list, empty dict, ...), before per-element
validation; for a list payload, when element processing completes (possibly
dropping elements) the outcome is the no-data message for the empty list and
otherwise the report of the surviving records, even when every element was
dropped. -/
theorem C8_no_data_iff_falsy (static : List (Json × Json)) (rd : Json) (xs ns : List Json) :
    (pyTruthy rd = false → realtimeOutcome static rd = RealtimeOutcome.noData)
    ∧ (pyTruthy rd = true → realtimeOutcome static rd ≠ RealtimeOutcome.noData)
    ∧ (processElems static xs = some ns →
        realtimeOutcome static (Json.arr xs)
          = if xs.isEmpty then RealtimeOutcome.noData else RealtimeOutcome.report ns) := by
  refine ⟨?_, ?_, ?_⟩
  · intro h
    simp [realtimeOutcome, h]
  · intro h
    simp only [realtimeOutcome, h, if_true]
    cases hd : dispatchElems rd with
    | formatErr ks => simp
    | iterErr => simp
    | elems ys =>
        cases hp : processElems static ys with
        | none => simp [hp]
        | some ns2 => simp [hp]
  · intro hp
    cases xs with
    | nil => simp [realtimeOutcome, pyTruthy]
    | cons a rest =>
        have ht : pyTruthy (Json.arr (a :: rest)) = true := by simp [pyTruthy]
        simp [realtimeOutcome, ht, dispatchElems, hp]

/-- Witness for C8 amended: a one-element list whose element is an empty dict
reports one record (the placeholder-named node), and the no-data branch is
not taken. -/
theorem C8_no_data_iff_falsy_witness :
    realtimeOutcome [] (Json.arr [Json.obj []])
      = RealtimeOutcome.report [Json.obj [("name", Json.str "未知节点")]] := by
  have h := (C8_no_data_iff_falsy [] (Json.arr [Json.obj []]) [Json.obj []]
    [Json.obj [("name", Json.str "未知节点")]]).2.2 (by with_unfolding_all rfl)
  simpa using h

/-! Claim C9: the static inventory index. -/

/-- C9 counterexample: three deviations from the universal claim, at concrete
inventory lists.  First, in a list whose second node reuses the uuid of the
first as its id, the entry under the shared key is the second record, so the
two identity keys of the first node do not resolve to the identical record.
Second, a non-null but empty-string id is not indexed at all, since insertion
is guarded by Python truthiness rather than non-nullness.  Third, a truthy
but unhashable id (a list) raises `TypeError` when used as a dict key,
aborting the whole index build, so neither that node nor the following node
with a perfectly good id gets an entry. -/
theorem C9_index_counterexample :
    (dlookupJ (buildStatic staticCollision []) (Json.str "a")
        = some (Json.obj [("id", Json.str "a"), ("uuid", Json.str "b"), ("name", Json.str "n1")])
      ∧ dlookupJ (buildStatic staticCollision []) (Json.str "b")
        = some (Json.obj [("id", Json.str "b"), ("name", Json.str "n2")])
      ∧ Json.obj [("id", Json.str "b"), ("name", Json.str "n2")]
          ≠ Json.obj [("id", Json.str "a"), ("uuid", Json.str "b"), ("name", Json.str "n1")])
    ∧ (Json.str "" ≠ Json.null
      ∧ dlookupJ (buildStatic [Json.obj [("id", Json.str ""), ("uuid", Json.str "u")]] [])
          (Json.str "") = none)
    ∧ buildStatic [Json.obj [("id", Json.arr [Json.str "a"])],
        Json.obj [("id", Json.str "z")]] [] = [] :=
  ⟨⟨rfl, rfl, by decide⟩, ⟨by decide, rfl⟩, rfl⟩

theorem insertKey_active (acc : List (Json × Json)) (key node : Json)
    (ht : pyTruthy key = true) (hh : pyHashable key = true) :
    insertKey acc key node = (dinsertJ acc key node, false) := by
  simp [insertKey, ht, hh]

theorem insertKey_falsy (acc : List (Json × Json)) (key node : Json)
    (ht : pyTruthy key = false) :
    insertKey acc key node = (acc, false) := by
  simp [insertKey, ht]

theorem insertKey_no_raise (acc : List (Json × Json)) (key node : Json)
    (h : pyTruthy key = false ∨ pyHashable key = true) :
    (insertKey acc key node).2 = false := by
  simp only [insertKey]
  rcases h with h | h
  · simp [h]
  · by_cases ht : pyTruthy key = true
    · simp [ht, h]
    · simp [ht]

theorem insertKey_preserves (acc : List (Json × Json)) (key node k2 : Json)
    (h : k2 ≠ key ∨ pyTruthy key = false) :
    dlookupJ (insertKey acc key node).1 k2 = dlookupJ acc k2 := by
  simp only [insertKey]
  by_cases ht : pyTruthy key = true
  · have hne : k2 ≠ key := by
      rcases h with h | h
      · exact h
      · rw [ht] at h
        cases h
    by_cases hh : pyHashable key = true
    · simp [ht, hh, dlookupJ_dinsertJ_ne _ _ _ _ hne]
    · simp [ht, hh]
  · simp [ht]

theorem insertNode_no_raise (acc : List (Json × Json)) (fields : List (String × Json))
    (hok : nodeKeysOk (Json.obj fields) = true) :
    (insertNode acc fields).2 = false := by
  simp only [nodeKeysOk, Bool.and_eq_true, Bool.or_eq_true, Bool.not_eq_true'] at hok
  have h1 : (insertKey acc (pyGetN fields "id") (Json.obj fields)).2 = false :=
    insertKey_no_raise _ _ _ hok.1
  simp only [insertNode, h1, Bool.false_eq_true, if_false]
  exact insertKey_no_raise _ _ _ hok.2

theorem insertNode_lookup_self (acc : List (Json × Json)) (fields : List (String × Json))
    (k : Json) (hok : nodeKeysOk (Json.obj fields) = true)
    (hk : k ∈ insKeys (Json.obj fields)) :
    dlookupJ (insertNode acc fields).1 k = some (Json.obj fields) := by
  simp only [nodeKeysOk, Bool.and_eq_true, Bool.or_eq_true, Bool.not_eq_true'] at hok
  simp only [insKeys] at hk
  by_cases hid : pyTruthy (pyGetN fields "id") = true
  · have hih : pyHashable (pyGetN fields "id") = true := by
      rcases hok.1 with h | h
      · rw [hid] at h
        cases h
      · exact h
    by_cases huu : pyTruthy (pyGetN fields "uuid") = true
    · have huh : pyHashable (pyGetN fields "uuid") = true := by
        rcases hok.2 with h | h
        · rw [huu] at h
          cases h
        · exact h
      simp only [hid, huu, if_true, List.mem_append, List.mem_singleton] at hk
      simp only [insertNode, insertKey_active acc _ _ hid hih, Bool.false_eq_true, if_false,
        insertKey_active _ _ _ huu huh]
      rcases hk with hk | hk
      · subst hk
        by_cases same : pyGetN fields "uuid" = pyGetN fields "id"
        · rw [same, dlookupJ_dinsertJ_self]
        · rw [dlookupJ_dinsertJ_ne _ _ _ _ (fun hc => same hc.symm),
            dlookupJ_dinsertJ_self]
      · subst hk
        rw [dlookupJ_dinsertJ_self]
    · simp only [Bool.not_eq_true] at huu
      simp only [hid, huu, if_true, Bool.false_eq_true, if_false, List.append_nil,
        List.mem_singleton] at hk
      subst hk
      simp only [insertNode, insertKey_active acc _ _ hid hih, Bool.false_eq_true, if_false,
        insertKey_falsy _ _ _ huu]
      rw [dlookupJ_dinsertJ_self]
  · simp only [Bool.not_eq_true] at hid
    by_cases huu : pyTruthy (pyGetN fields "uuid") = true
    · have huh : pyHashable (pyGetN fields "uuid") = true := by
        rcases hok.2 with h | h
        · rw [huu] at h
          cases h
        · exact h
      simp only [hid, huu, if_true, Bool.false_eq_true, if_false, List.nil_append,
        List.mem_singleton] at hk
      subst hk
      simp only [insertNode, insertKey_falsy _ _ _ hid, Bool.false_eq_true, if_false,
        insertKey_active _ _ _ huu huh]
      rw [dlookupJ_dinsertJ_self]
    · simp only [Bool.not_eq_true] at huu
      simp [hid, huu] at hk

theorem insertNode_lookup_other (acc : List (Json × Json)) (fields : List (String × Json))
    (k : Json) (hk : k ∉ insKeys (Json.obj fields)) :
    dlookupJ (insertNode acc fields).1 k = dlookupJ acc k := by
  simp only [insKeys, List.mem_append] at hk
  push_neg at hk
  have h1 : dlookupJ (insertKey acc (pyGetN fields "id") (Json.obj fields)).1 k
      = dlookupJ acc k := by
    by_cases hid : pyTruthy (pyGetN fields "id") = true
    · refine insertKey_preserves _ _ _ _ (Or.inl fun hc => ?_)
      exact hk.1 (by simp [hid, hc])
    · simp only [Bool.not_eq_true] at hid
      exact insertKey_preserves _ _ _ _ (Or.inr hid)
  have h2 : ∀ acc2 : List (Json × Json),
      dlookupJ (insertKey acc2 (pyGetN fields "uuid") (Json.obj fields)).1 k
        = dlookupJ acc2 k := by
    intro acc2
    by_cases huu : pyTruthy (pyGetN fields "uuid") = true
    · refine insertKey_preserves _ _ _ _ (Or.inl fun hc => ?_)
      exact hk.2 (by simp [huu, hc])
    · simp only [Bool.not_eq_true] at huu
      exact insertKey_preserves _ _ _ _ (Or.inr huu)
  simp only [insertNode]
  by_cases hs : (insertKey acc (pyGetN fields "id") (Json.obj fields)).2 = true
  · simp only [hs, if_true]
    exact h1
  · simp only [Bool.not_eq_true] at hs
    simp only [hs, Bool.false_eq_true, if_false]
    rw [h2, h1]

theorem buildStatic_lookup_skip (post : List Json) (acc : List (Json × Json)) (k : Json)
    (hpost : ∀ m ∈ post, k ∉ insKeys m) :
    dlookupJ (buildStatic post acc) k = dlookupJ acc k := by
  induction post generalizing acc with
  | nil => rfl
  | cons m rest ih =>
      cases m with
      | obj mfs =>
          simp only [buildStatic]
          by_cases hs : (insertNode acc mfs).2 = true
          · simp only [hs, if_true]
            exact insertNode_lookup_other acc mfs k (hpost _ (List.mem_cons_self _ _))
          · simp only [Bool.not_eq_true] at hs
            simp only [hs, Bool.false_eq_true, if_false]
            rw [ih _ (fun m2 h2 => hpost m2 (List.mem_cons_of_mem _ h2))]
            exact insertNode_lookup_other acc mfs k (hpost _ (List.mem_cons_self _ _))
      | null => rfl
      | bool b => rfl
      | num q => rfl
      | str s => rfl
      | arr xs => rfl

theorem buildStatic_append (pre rest : List Json) (acc : List (Json × Json))
    (hpre : ∀ m ∈ pre, isObjJ m = true ∧ nodeKeysOk m = true) :
    buildStatic (pre ++ rest) acc = buildStatic rest (buildStatic pre acc) := by
  induction pre generalizing acc with
  | nil => rfl
  | cons m ms ih =>
      obtain ⟨hobj, hok⟩ := hpre m (List.mem_cons_self _ _)
      cases m with
      | obj mfs =>
          simp only [List.cons_append, buildStatic,
            insertNode_no_raise acc mfs hok, Bool.false_eq_true, if_false]
          exact ih _ (fun m2 h2 => hpre m2 (List.mem_cons_of_mem _ h2))
      | null => simp [isObjJ] at hobj
      | bool b => simp [isObjJ] at hobj
      | num q => simp [isObjJ] at hobj
      | str s => simp [isObjJ] at hobj
      | arr xs => simp [isObjJ] at hobj

/-- C9 amended: for an inventory of dict nodes whose truthy identity keys
are hashable, the index holds an entry for a node under each of its truthy
identity keys (`id` and `uuid`; a null, empty or otherwise falsy key is not
indexed, and a truthy unhashable key would instead raise and abort the whole
build) provided no later node of the list carries the same key (later nodes
overwrite earlier entries); in particular both keys of such a node resolve
to the identical record. -/
theorem C9_static_index (pre post : List Json) (fields : List (String × Json)) (k : Json)
    (hpre : ∀ m ∈ pre, isObjJ m = true ∧ nodeKeysOk m = true)
    (hok : nodeKeysOk (Json.obj fields) = true)
    (hk : k ∈ insKeys (Json.obj fields))
    (hpost : ∀ m ∈ post, k ∉ insKeys m) :
    dlookupJ (buildStatic (pre ++ Json.obj fields :: post) []) k = some (Json.obj fields) := by
  rw [buildStatic_append pre (Json.obj fields :: post) [] hpre]
  simp only [buildStatic, insertNode_no_raise _ fields hok, Bool.false_eq_true, if_false]
  rw [buildStatic_lookup_skip post _ k hpost]
  exact insertNode_lookup_self _ fields k hok hk

/-- Witness for C9 amended: a three-node inventory where the middle node is
indexed under both its keys, neither reused later; both entries are that very
record. -/
theorem C9_static_index_witness :
    dlookupJ (buildStatic [Json.obj [("id", Json.str "p")],
        Json.obj [("id", Json.str "x"), ("uuid", Json.str "y")],
        Json.obj [("id", Json.str "q")]] []) (Json.str "x")
      = some (Json.obj [("id", Json.str "x"), ("uuid", Json.str "y")])
    ∧ dlookupJ (buildStatic [Json.obj [("id", Json.str "p")],
        Json.obj [("id", Json.str "x"), ("uuid", Json.str "y")],
        Json.obj [("id", Json.str "q")]] []) (Json.str "y")
      = some (Json.obj [("id", Json.str "x"), ("uuid", Json.str "y")]) :=
  ⟨C9_static_index [Json.obj [("id", Json.str "p")]] [Json.obj [("id", Json.str "q")]]
      [("id", Json.str "x"), ("uuid", Json.str "y")] (Json.str "x")
      (by intro m hm; fin_cases hm; exact ⟨rfl, rfl⟩) rfl (by decide)
      (by intro m hm; fin_cases hm; decide),
   C9_static_index [Json.obj [("id", Json.str "p")]] [Json.obj [("id", Json.str "q")]]
      [("id", Json.str "x"), ("uuid", Json.str "y")] (Json.str "y")
      (by intro m hm; fin_cases hm; exact ⟨rfl, rfl⟩) rfl (by decide)
      (by intro m hm; fin_cases hm; decide)⟩

/-! Claim C10: the cpu usage default. -/

/-- C10: a cpu group that is a dict without a `usage` key defaults the usage
to 0, so `cpu_usage_percent = 0.0` is set; a cpu dict whose `usage` is
explicitly null skips the assignment and the record passes through the cpu
step unchanged, gaining no `cpu_usage_percent` field. -/
theorem C10_cpu_usage_default (fields cfs : List (String × Json)) :
    (lookupStr fields "cpu" = some (Json.obj cfs) →
      lookupStr cfs "usage" = none →
      cpuStep fields = some (dinsertS fields "cpu_usage_percent" (Json.num 0)))
    ∧ (lookupStr fields "cpu" = some (Json.obj cfs) →
      lookupStr cfs "usage" = some Json.null →
      cpuStep fields = some fields) := by
  constructor
  · intro hc hu
    have h0 : roundTo 2 ((0 : ℚ)) = 0 := by
      with_unfolding_all decide
    simp only [cpuStep, hc, pyGetD, hu, Option.getD_none, pyFloat]
    rw [if_neg (by decide)]
    rw [h0]
  · intro hc hu
    simp [cpuStep, hc, pyGetD, hu]

/-- Witness for C10: a record with an empty cpu dict gains
`cpu_usage_percent = 0`, and one with a null usage passes through unchanged,
with no `cpu_usage_percent` entry. -/
theorem C10_cpu_usage_default_witness :
    cpuStep [("cpu", Json.obj [])]
      = some [("cpu", Json.obj []), ("cpu_usage_percent", Json.num 0)]
    ∧ cpuStep [("cpu", Json.obj [("usage", Json.null)])]
      = some [("cpu", Json.obj [("usage", Json.null)])]
    ∧ lookupStr [("cpu", Json.obj [("usage", Json.null)])] "cpu_usage_percent" = none :=
  ⟨(C10_cpu_usage_default [("cpu", Json.obj [])] []).1 rfl rfl,
   (C10_cpu_usage_default [("cpu", Json.obj [("usage", Json.null)])]
      [("usage", Json.null)]).2 rfl rfl,
   rfl⟩

end Komari
